import Mathlib

/-!
libmatrix: fixed-size vectors and matrices

A shallow embedding of `src/vec.h` and `src/mat.h`.

* `std::array<T,N>` and the raw array `T m_[K*K]` are functions out of `Fin`.
* The element type `T` is generic; each definition asks only for the
  operations the source applies to `T` (`+`, `-`, `*`, `/`, the literals `0`
  and `1`).  Theorems about exact arithmetic take `[CommRing T]`.
* A member function that mutates `*this` and returns `*this` is a function
  from the old value of the object to the new one.
-/

namespace LibMatrix

/-! ## vec.h : tvec -/

/-- The conversions between `int` and the element type `T` that `vec.h` relies
on: `ofInt` is `(T)i`, and `toInt` is the implicit conversion of a `T` to `int`
(truncation toward zero for a fractional type).  The C++ `int` is taken as an
unbounded integer: overflow is not modelled. -/
class IntConv (T : Type) where
  ofInt : Int → T
  toInt : T → Int

/-- The element type `int`. -/
instance : IntConv Int where
  ofInt i := i
  toInt t := t

/-- A fractional element type (`float`, `double`) on the values it represents
exactly: conversion to `int` discards the fractional part. -/
instance : IntConv Rat where
  ofInt i := (i : Rat)
  toInt t := if 0 ≤ t then ⌊t⌋ else ⌈t⌉

/-- The struct `tvec<T, N, A>`, which derives from `std::array<T, N>`. -/
structure tvec (T : Type) (N : Nat) where
  data : Fin N → T

/-- The algorithm `std::transform(first1, last1, first2, d_first, op)` as
`vec.h` calls it: `first1` and `d_first` are both `begin()` of the array `a`,
`first2` is `begin()` of `rhs`, and `last1 - first1` is `count`.  Each step
stores `op(*first1, *first2)` through `d_first` and advances the three
iterators; `first` is their common offset. -/
def transform {T : Type} {N M : Nat} (op : T → T → T) (rhs : Fin M → T) :
    (count first : Nat) → (Fin N → T) → (Fin N → T)
  | 0, _, a => a
  | count + 1, first, a =>
    if h : first < N ∧ first < M then
      transform op rhs count (first + 1)
        (Function.update a ⟨first, h.1⟩ (op (a ⟨first, h.1⟩) (rhs ⟨first, h.2⟩)))
    else a

/-- The algorithm `std::accumulate(first, last, init)` with `init` the `int`
literal `0` of `tvec::dot`: the accumulator has type `int`, and each step
`init = init + *first` adds in `T` and converts the sum back to `int`. -/
def accumulate {T : Type} {N : Nat} [IntConv T] [Add T] (a : Fin N → T) :
    (count first : Nat) → Int → Int
  | 0, _, init => init
  | count + 1, first, init =>
    if h : first < N then
      accumulate a count (first + 1) (IntConv.toInt (IntConv.ofInt init + a ⟨first, h⟩))
    else init

namespace tvec
variable {T : Type} {N : Nat}

/-- The member `std::array::fill(value)`: whatever the array held, every
element is `value` afterwards. -/
def fill (value : T) : tvec T N :=
  ⟨fun _ => value⟩

/-- The constructor `tvec()`: `std::array<T,N>{}`, every element value-initialised. -/
def new [Zero T] : tvec T N :=
  ⟨fun _ => 0⟩

/-- The constructor `tvec(const T t)`, whose body is `(*this).fill((T)1);`. -/
def ofScalar [One T] (_t : T) : tvec T N :=
  fill 1

/-- The constructor `tvec(const I... args)` (more than one argument):
`std::array<T,N>{{ (T)args... }}`; elements past the last argument are
value-initialised. -/
def ofArgs [Zero T] (args : List T) : tvec T N :=
  ⟨fun i => args.getD i.val 0⟩

/-- The conversion `operator tvec<T,N_LHS,A_RHS>()`: the same memory read as a
vector of `N_LHS` elements.  Only the truncating direction is modelled. -/
def reinterpret {N_LHS : Nat} (self : tvec T N) (h : N_LHS ≤ N) : tvec T N_LHS :=
  ⟨fun i => self.data ⟨i.val, Nat.lt_of_lt_of_le i.isLt h⟩⟩

/-- The conversion `operator const T*()`: `data()`. -/
def toPtr (self : tvec T N) : Fin N → T := self.data

/-- The accessor `x()`: `(*this)[0]`. -/
def x {n : Nat} (self : tvec T (n + 1)) : T := self.data 0
/-- The accessor `y()`: `(*this)[1]`. -/
def y {n : Nat} (self : tvec T (n + 2)) : T := self.data 1
/-- The accessor `z()`: `(*this)[2]`. -/
def z {n : Nat} (self : tvec T (n + 3)) : T := self.data 2
/-- The accessor `w()`: `(*this)[3]`. -/
def w {n : Nat} (self : tvec T (n + 4)) : T := self.data 3

/-- The member `yzx()` (requires `N > 2`): `{ (*this)[1], (*this)[2], (*this)[0] }`. -/
def yzx {n : Nat} (self : tvec T (n + 3)) : tvec T 3 :=
  ⟨![self.data 1, self.data 2, self.data 0]⟩

variable {N_RHS : Nat}

/-- The operator `operator/=(const tvec<T_RHS,N_RHS,A_RHS>&)`. -/
def divAssign [Div T] (self : tvec T N) (rhs : tvec T N_RHS) : tvec T N :=
  ⟨transform (fun a b => a / b) rhs.data (min N N_RHS) 0 self.data⟩

/-- The operator `operator/=(const T_RHS&)`: `(*this) /= tvec<T,N,A>((T)rhs)`. -/
def divAssignScalar [One T] [Div T] (self : tvec T N) (rhs : T) : tvec T N :=
  self.divAssign (ofScalar rhs : tvec T N)

/-- The operator `operator/(const T_RHS&)`: `tvec<T,N,A>(*this) /= (T)rhs`. -/
def divScalar [One T] [Div T] (self : tvec T N) (rhs : T) : tvec T N :=
  self.divAssignScalar rhs

/-- The operator `operator/(const tvec<T_RHS,N_RHS,A_RHS>&)`: `tvec<T,N,A>(*this) /= rhs`. -/
def div [Div T] (self : tvec T N) (rhs : tvec T N_RHS) : tvec T N :=
  self.divAssign rhs

/-- The operator `operator*=(const tvec<T_RHS,N_RHS,A_RHS>&)`. -/
def mulAssign [Mul T] (self : tvec T N) (rhs : tvec T N_RHS) : tvec T N :=
  ⟨transform (fun a b => a * b) rhs.data (min N N_RHS) 0 self.data⟩

/-- The operator `operator*=(const T_RHS&)`: `(*this) *= tvec<T,N,A>((T)rhs)`. -/
def mulAssignScalar [One T] [Mul T] (self : tvec T N) (rhs : T) : tvec T N :=
  self.mulAssign (ofScalar rhs : tvec T N)

/-- The operator `operator*(const T_RHS&)`: `tvec<T,N,A>(*this) *= (T)rhs`. -/
def mulScalar [One T] [Mul T] (self : tvec T N) (rhs : T) : tvec T N :=
  self.mulAssignScalar rhs

/-- The operator `operator*(const tvec<T_RHS,N_RHS,A_RHS>&)`: `tvec<T,N,A>(*this) *= rhs`. -/
def mul [Mul T] (self : tvec T N) (rhs : tvec T N_RHS) : tvec T N :=
  self.mulAssign rhs

/-- The operator `operator+=(const tvec<T_RHS,N_RHS,A_RHS>&)`. -/
def addAssign [Add T] (self : tvec T N) (rhs : tvec T N_RHS) : tvec T N :=
  ⟨transform (fun a b => a + b) rhs.data (min N N_RHS) 0 self.data⟩

/-- The operator `operator+=(const T_RHS&)`: `(*this) += tvec<T,N,A>((T)rhs)`. -/
def addAssignScalar [One T] [Add T] (self : tvec T N) (rhs : T) : tvec T N :=
  self.addAssign (ofScalar rhs : tvec T N)

/-- The operator `operator+(const T_RHS&)`: `tvec<T,N,A>(*this) += (T)rhs`. -/
def addScalar [One T] [Add T] (self : tvec T N) (rhs : T) : tvec T N :=
  self.addAssignScalar rhs

/-- The operator `operator+(const tvec<T_RHS,N_RHS,A_RHS>&)`: `tvec<T,N,A>(*this) += rhs`. -/
def add [Add T] (self : tvec T N) (rhs : tvec T N_RHS) : tvec T N :=
  self.addAssign rhs

/-- The operator `operator-=(const tvec<T_RHS,N_RHS,A_RHS>&)`. -/
def subAssign [Sub T] (self : tvec T N) (rhs : tvec T N_RHS) : tvec T N :=
  ⟨transform (fun a b => a - b) rhs.data (min N N_RHS) 0 self.data⟩

/-- The operator `operator-=(const T_RHS&)`: `(*this) -= tvec<T,N,A>((T)rhs)`. -/
def subAssignScalar [One T] [Sub T] (self : tvec T N) (rhs : T) : tvec T N :=
  self.subAssign (ofScalar rhs : tvec T N)

/-- The operator `operator-(const T_RHS&)`: `tvec<T,N,A>(*this) -= (T)rhs`. -/
def subScalar [One T] [Sub T] (self : tvec T N) (rhs : T) : tvec T N :=
  self.subAssignScalar rhs

/-- The operator `operator-(const tvec<T_RHS,N_RHS,A_RHS>&)`: `tvec<T,N,A>(*this) -= rhs`. -/
def sub [Sub T] (self : tvec T N) (rhs : tvec T N_RHS) : tvec T N :=
  self.subAssign rhs

/-- The static member `dot(v1, v2)`: the product `v1 * v2` is read as a vector
`dst` of `min(N_V1, N_V2)` elements, which `std::accumulate` sums from the
`int` literal `0`; the result is cast to `T_DST`. -/
def dot {N_V1 N_V2 : Nat} [IntConv T] [Add T] [Mul T]
    (v1 : tvec T N_V1) (v2 : tvec T N_V2) : T :=
  let dst : tvec T (min N_V1 N_V2) := (v1.mul v2).reinterpret (Nat.min_le_left N_V1 N_V2)
  IntConv.ofInt (accumulate dst.data (min N_V1 N_V2) 0 0)

/-- The member `length()`: `sqrt(dot(*this, *this))`, a `float`.  The type `F`
stands for `float`, and `sqrt` for the library square root together with the
conversions around it. -/
def length {F : Type} [IntConv T] [Add T] [Mul T] (sqrt : T → F) (self : tvec T N) : F :=
  sqrt (dot self self)

/-- The member `normalize()`: `float l = length(); if (l != 0 && l != 1) (*this) /= l;`.
The function `cast` is the conversion `(T)rhs` inside `operator/=(const T_RHS&)`. -/
def normalize {F : Type} [Zero F] [One F] [DecidableEq F] [IntConv T] [Add T] [Mul T]
    [One T] [Div T] (sqrt : T → F) (cast : F → T) (self : tvec T N) : tvec T N :=
  let l := self.length sqrt
  if l ≠ 0 ∧ l ≠ 1 then self.divAssignScalar (cast l) else self

/-- The static member `cross(u, v)`: `(u * v.yzx() - u.yzx() * v).yzx()`. -/
def cross {n m : Nat} [Mul T] [Sub T] (u : tvec T (n + 3)) (v : tvec T (m + 3)) : tvec T 3 :=
  ((u.mul v.yzx).sub (u.yzx.mul v)).yzx

end tvec

/-- The global `operator*(const T t, const tvecN<T>& v)` (N = 2, 3, 4): `v * t`. -/
def scalarMulVec {T : Type} {N : Nat} [One T] [Mul T] (t : T) (v : tvec T N) : tvec T N :=
  v.mulScalar t

/-! ## vec.h : alignment of tvec -/

/-- The enumeration `enum class align : size_t`. -/
inductive align where
  | none
  | element
  | vector
  | adaptive
  deriving DecidableEq

/-- The doubling search behind `bit_ceil`: `p` is a power of two, doubled
until it reaches `n`. -/
def bit_ceil_loop (n : Nat) : (fuel : Nat) → (p : Nat) → Nat
  | 0, p => p
  | fuel + 1, p => if n ≤ p then p else bit_ceil_loop n fuel (2 * p)

/-- The library function `std::bit_ceil<size_t>(n)`: the smallest power of
two that is not smaller than `n`. -/
def bit_ceil (n : Nat) : Nat :=
  bit_ceil_loop n n 1

/-- The operand of `alignas` in the declaration of `tvec<T, N, A>`, with
`N_POW2 = std::bit_ceil<size_t>(N)` and `sizeofT` standing for `sizeof(T)`:
`((N == N_POW2 && A != align::element) || A == align::vector)
   ? N_POW2 * sizeof(T) : sizeof(T)`. -/
def tvec.alignment (N : Nat) (A : align) (sizeofT : Nat) : Nat :=
  let N_POW2 := bit_ceil N
  if (N = N_POW2 ∧ A ≠ align.element) ∨ A = align.vector then N_POW2 * sizeofT else sizeofT

/-- The object width `sizeof(tvec<T, N, A>)`: the base `std::array<T, N>`
takes `N * sizeof(T)` bytes, and the size of a type is the next multiple of
its alignment. -/
def tvec.objectSize (N : Nat) (A : align) (sizeofT : Nat) : Nat :=
  let a := tvec.alignment N A sizeofT
  (N * sizeofT + a - 1) / a * a

/-! ## mat.h : ArrayProxy -/

/-- The class `ArrayProxy<T, dimension>`.  Its only member `T* data_` is a
pointer into an array: `buf` is that array (of `size` elements) and `base` the
element `data_` points at.  `inb` records that the strides the proxy can take
(`index < dimension`) stay inside the array. -/
structure ArrayProxy (T : Type) (dimension size : Nat) where
  buf : Fin size → T
  base : Nat
  inb : base + (dimension - 1) * dimension < size

theorem ArrayProxy.stride_lt {dimension size base : Nat}
    (inb : base + (dimension - 1) * dimension < size) (index : Fin dimension) :
    base + index.val * dimension < size := by
  have h1 : index.val ≤ dimension - 1 := by
    have := index.isLt
    omega
  have h2 : index.val * dimension ≤ (dimension - 1) * dimension :=
    Nat.mul_le_mul_right dimension h1
  omega

/-- The accessor `ArrayProxy::operator[](int index)`: `data_[index * dimension]`. -/
def ArrayProxy.subscript {T : Type} {dimension size : Nat}
    (p : ArrayProxy T dimension size) (index : Fin dimension) : T :=
  p.buf ⟨p.base + index.val * dimension, ArrayProxy.stride_lt p.inb index⟩

/-- An assignment `p[index] = val` through `T& ArrayProxy::operator[](int index)`:
the element `data_[index * dimension]` of the array pointed into is
overwritten; the result is that array afterwards. -/
def ArrayProxy.assign {T : Type} {dimension size : Nat}
    (p : ArrayProxy T dimension size) (index : Fin dimension) (val : T) : Fin size → T :=
  Function.update p.buf ⟨p.base + index.val * dimension, ArrayProxy.stride_lt p.inb index⟩ val

/-- A `const T&` parameter of a member function of a matrix with `n`
elements: the reference is bound either to an object outside the matrix's own
array (`outside`, with its value) or to element `k` of that array
(`element`), as in `M /= M[0][0]`. -/
inductive ScalarRef (T : Type) (n : Nat) where
  | outside (val : T)
  | element (k : Fin n)

/-- Reading through the reference while the array holds `m_`. -/
def ScalarRef.read {T : Type} {n : Nat} : ScalarRef T n → (Fin n → T) → T
  | ScalarRef.outside val, _ => val
  | ScalarRef.element k, m_ => m_ k

/-! ## mat.h : tmat2 -/

/-- The class `tmat2<T>`: `T m_[4]`. -/
structure tmat2 (T : Type) where
  m_ : Fin 4 → T

namespace tmat2
variable {T : Type}

/-- The copy constructor `tmat2(const tmat2& m)`. -/
def copy (m : tmat2 T) : tmat2 T :=
  ⟨![m.m_ 0, m.m_ 1, m.m_ 2, m.m_ 3]⟩

/-- The conversion `operator const T*()`: `&m_[0]`, the raw buffer. -/
def toPtr (m : tmat2 T) : Fin 4 → T := m.m_

/-- The accessor `operator[](int index)`: `ArrayProxy<T, 2>(&m_[index])`. -/
def subscript (m : tmat2 T) (index : Fin 2) : ArrayProxy T 2 4 :=
  ⟨m.m_, index.val, by have := index.isLt; omega⟩

/-- The operator `tmat2::operator+=`. -/
def addAssign [Add T] (self rhs : tmat2 T) : tmat2 T :=
  ⟨![self.m_ 0 + rhs.m_ 0,
     self.m_ 1 + rhs.m_ 1,
     self.m_ 2 + rhs.m_ 2,
     self.m_ 3 + rhs.m_ 3]⟩

/-- The operator `tmat2::operator+`: `tmat2(*this) += rhs`. -/
def add [Add T] (self rhs : tmat2 T) : tmat2 T :=
  addAssign (copy self) rhs

/-- The operator `tmat2::operator-=`. -/
def subAssign [Sub T] (self rhs : tmat2 T) : tmat2 T :=
  ⟨![self.m_ 0 - rhs.m_ 0,
     self.m_ 1 - rhs.m_ 1,
     self.m_ 2 - rhs.m_ 2,
     self.m_ 3 - rhs.m_ 3]⟩

/-- The operator `tmat2::operator-`: the source reads `return tmat2(*this) += rhs;`. -/
def sub [Add T] (self rhs : tmat2 T) : tmat2 T :=
  addAssign (copy self) rhs

/-- The operator `tmat2::operator*=(const tmat2&)`. -/
def mulAssign [Add T] [Mul T] (self rhs : tmat2 T) : tmat2 T :=
  let c0r0 := (self.m_ 0 * rhs.m_ 0) + (self.m_ 2 * rhs.m_ 1)
  let c0r1 := (self.m_ 1 * rhs.m_ 0) + (self.m_ 3 * rhs.m_ 1)
  let c1r0 := (self.m_ 0 * rhs.m_ 2) + (self.m_ 2 * rhs.m_ 3)
  let c1r1 := (self.m_ 1 * rhs.m_ 2) + (self.m_ 3 * rhs.m_ 3)
  ⟨![c0r0, c0r1, c1r0, c1r1]⟩

/-- The operator `tmat2::operator*(const tmat2&)`: `tmat2(*this) *= rhs`. -/
def mul [Add T] [Mul T] (self rhs : tmat2 T) : tmat2 T :=
  mulAssign (copy self) rhs

/-- The member `tmat2::setIdentity()`: it assigns every element of `m_`. -/
def setIdentity [Zero T] [One T] (_self : tmat2 T) : tmat2 T :=
  ⟨![1, 0, 0, 1]⟩

/-- The constructor `tmat2()`: `setIdentity()` on the fresh object, whose
storage is indeterminate and fully overwritten (zeros stand for it here). -/
def new [Zero T] [One T] : tmat2 T :=
  setIdentity ⟨fun _ => 0⟩

/-- The member `tmat2::transpose()`, statement by statement. -/
def transpose (self : tmat2 T) : tmat2 T :=
  let m_ := self.m_
  let tmp_val := m_ 1
  let m_ := Function.update m_ 1 (m_ 2)
  let m_ := Function.update m_ 2 tmp_val
  ⟨m_⟩

/-- The operator `tmat2::operator*=(const T& rhs)`, statement by statement:
each `m_[k] *= rhs` reads `rhs` through the reference at that moment. -/
def mulAssignScalar [Mul T] (self : tmat2 T) (rhs : ScalarRef T 4) : tmat2 T :=
  let m_ := self.m_
  let m_ := Function.update m_ 0 (m_ 0 * rhs.read m_)
  let m_ := Function.update m_ 1 (m_ 1 * rhs.read m_)
  let m_ := Function.update m_ 2 (m_ 2 * rhs.read m_)
  let m_ := Function.update m_ 3 (m_ 3 * rhs.read m_)
  ⟨m_⟩

/-- The operator `tmat2::operator*(const T& rhs)`: `tmat2(*this) *= rhs`.
The compound operator runs on the temporary copy, so `rhs` is never bound
into the array being written and keeps its value. -/
def mulScalar [Mul T] (self : tmat2 T) (rhs : T) : tmat2 T :=
  mulAssignScalar (copy self) (ScalarRef.outside rhs)

/-- The operator `tmat2::operator/=(const T& rhs)`, statement by statement:
each `m_[k] /= rhs` reads `rhs` through the reference at that moment. -/
def divAssignScalar [Div T] (self : tmat2 T) (rhs : ScalarRef T 4) : tmat2 T :=
  let m_ := self.m_
  let m_ := Function.update m_ 0 (m_ 0 / rhs.read m_)
  let m_ := Function.update m_ 1 (m_ 1 / rhs.read m_)
  let m_ := Function.update m_ 2 (m_ 2 / rhs.read m_)
  let m_ := Function.update m_ 3 (m_ 3 / rhs.read m_)
  ⟨m_⟩

/-- The operator `tmat2::operator/(const T& rhs)`: `tmat2(*this) /= rhs`.
The compound operator runs on the temporary copy, so `rhs` is never bound
into the array being written and keeps its value. -/
def divScalar [Div T] (self : tmat2 T) (rhs : T) : tmat2 T :=
  divAssignScalar (copy self) (ScalarRef.outside rhs)

/-- An assignment `m[r][c] = val` through the proxy returned by the
non-const `operator[]`: the proxy points into `m_`, so the write lands there. -/
def assign (m : tmat2 T) (r c : Fin 2) (val : T) : tmat2 T :=
  ⟨(m.subscript r).assign c val⟩

end tmat2

/-- The global `operator*(const tmat2<T>& lhs, const tvec2<T>& rhs)`. -/
def tmat2.mulVec {T : Type} [Zero T] [Add T] [Mul T] (lhs : tmat2 T) (rhs : tvec T 2) :
    tvec T 2 :=
  let x := ((lhs.subscript 0).subscript 0 * rhs.x) + ((lhs.subscript 0).subscript 1 * rhs.y)
  let y := ((lhs.subscript 1).subscript 0 * rhs.x) + ((lhs.subscript 1).subscript 1 * rhs.y)
  tvec.ofArgs [x, y]

/-- The global `operator*(const T& lhs, const tmat2<T>& rhs)`: `tmat2<T>(rhs) * lhs`. -/
def tmat2.scalarMul {T : Type} [Mul T] (lhs : T) (rhs : tmat2 T) : tmat2 T :=
  (copy rhs).mulScalar lhs

/-- The global `operator*(const tvec2<T>& lhs, const tmat2<T>& rhs)`. -/
def tmat2.vecMul {T : Type} [Zero T] [Add T] [Mul T] (lhs : tvec T 2) (rhs : tmat2 T) :
    tvec T 2 :=
  let x := (lhs.x * (rhs.subscript 0).subscript 0) + (lhs.y * (rhs.subscript 1).subscript 0)
  let y := (lhs.x * (rhs.subscript 0).subscript 1) + (lhs.y * (rhs.subscript 1).subscript 1)
  tvec.ofArgs [x, y]

/-- The global `outer(const tvec2<T>& a, const tvec2<T>& b)`. -/
def tmat2.outer {T : Type} [Zero T] [One T] [Mul T] (a b : tvec T 2) : tmat2 T :=
  let product : tmat2 T := tmat2.new
  let product := product.assign 0 0 (a.x * b.x)
  let product := product.assign 0 1 (a.x * b.y)
  let product := product.assign 1 0 (a.y * b.x)
  let product := product.assign 1 1 (a.y * b.y)
  product

/-! ## mat.h : tmat3 -/

/-- The class `tmat3<T>`: `T m_[9]`. -/
structure tmat3 (T : Type) where
  m_ : Fin 9 → T

namespace tmat3
variable {T : Type}

/-- The copy constructor `tmat3(const tmat3& m)`. -/
def copy (m : tmat3 T) : tmat3 T :=
  ⟨![m.m_ 0, m.m_ 1, m.m_ 2, m.m_ 3, m.m_ 4, m.m_ 5, m.m_ 6, m.m_ 7, m.m_ 8]⟩

/-- The conversion `operator const T*()`: `&m_[0]`, the raw buffer. -/
def toPtr (m : tmat3 T) : Fin 9 → T := m.m_

/-- The accessor `operator[](int index)`: `ArrayProxy<T, 3>(&m_[index])`. -/
def subscript (m : tmat3 T) (index : Fin 3) : ArrayProxy T 3 9 :=
  ⟨m.m_, index.val, by have := index.isLt; omega⟩

/-- The operator `tmat3::operator-=`. -/
def subAssign [Sub T] (self rhs : tmat3 T) : tmat3 T :=
  ⟨![self.m_ 0 - rhs.m_ 0,
     self.m_ 1 - rhs.m_ 1,
     self.m_ 2 - rhs.m_ 2,
     self.m_ 3 - rhs.m_ 3,
     self.m_ 4 - rhs.m_ 4,
     self.m_ 5 - rhs.m_ 5,
     self.m_ 6 - rhs.m_ 6,
     self.m_ 7 - rhs.m_ 7,
     self.m_ 8 - rhs.m_ 8]⟩

/-- The operator `tmat3::operator-`: `tmat3(*this) -= rhs`. -/
def sub [Sub T] (self rhs : tmat3 T) : tmat3 T :=
  subAssign (copy self) rhs

/-- The operator `tmat3::operator*=(const tmat3&)`. -/
def mulAssign [Add T] [Mul T] (self rhs : tmat3 T) : tmat3 T :=
  let c0r0 := (self.m_ 0 * rhs.m_ 0) + (self.m_ 3 * rhs.m_ 1) + (self.m_ 6 * rhs.m_ 2)
  let c0r1 := (self.m_ 1 * rhs.m_ 0) + (self.m_ 4 * rhs.m_ 1) + (self.m_ 7 * rhs.m_ 2)
  let c0r2 := (self.m_ 2 * rhs.m_ 0) + (self.m_ 5 * rhs.m_ 1) + (self.m_ 8 * rhs.m_ 2)
  let c1r0 := (self.m_ 0 * rhs.m_ 3) + (self.m_ 3 * rhs.m_ 4) + (self.m_ 6 * rhs.m_ 5)
  let c1r1 := (self.m_ 1 * rhs.m_ 3) + (self.m_ 4 * rhs.m_ 4) + (self.m_ 7 * rhs.m_ 5)
  let c1r2 := (self.m_ 2 * rhs.m_ 3) + (self.m_ 5 * rhs.m_ 4) + (self.m_ 8 * rhs.m_ 5)
  let c2r0 := (self.m_ 0 * rhs.m_ 6) + (self.m_ 3 * rhs.m_ 7) + (self.m_ 6 * rhs.m_ 8)
  let c2r1 := (self.m_ 1 * rhs.m_ 6) + (self.m_ 4 * rhs.m_ 7) + (self.m_ 7 * rhs.m_ 8)
  let c2r2 := (self.m_ 2 * rhs.m_ 6) + (self.m_ 5 * rhs.m_ 7) + (self.m_ 8 * rhs.m_ 8)
  ⟨![c0r0, c0r1, c0r2, c1r0, c1r1, c1r2, c2r0, c2r1, c2r2]⟩

/-- The operator `tmat3::operator*(const tmat3&)`: `tmat3(*this) *= rhs`. -/
def mul [Add T] [Mul T] (self rhs : tmat3 T) : tmat3 T :=
  mulAssign (copy self) rhs

/-- The member `tmat3::setIdentity()`: it assigns every element of `m_`. -/
def setIdentity [Zero T] [One T] (_self : tmat3 T) : tmat3 T :=
  ⟨![1, 0, 0, 0, 1, 0, 0, 0, 1]⟩

/-- The constructor `tmat3()`: `setIdentity()` on the fresh object, whose
storage is indeterminate and fully overwritten (zeros stand for it here). -/
def new [Zero T] [One T] : tmat3 T :=
  setIdentity ⟨fun _ => 0⟩

/-- The member `tmat3::transpose()`, statement by statement. -/
def transpose (self : tmat3 T) : tmat3 T :=
  let m_ := self.m_
  let tmp_val := m_ 1
  let m_ := Function.update m_ 1 (m_ 3)
  let m_ := Function.update m_ 3 tmp_val
  let tmp_val := m_ 2
  let m_ := Function.update m_ 2 (m_ 6)
  let m_ := Function.update m_ 6 tmp_val
  let tmp_val := m_ 5
  let m_ := Function.update m_ 5 (m_ 7)
  let m_ := Function.update m_ 7 tmp_val
  ⟨m_⟩

/-- The operator `tmat3::operator+=`. -/
def addAssign [Add T] (self rhs : tmat3 T) : tmat3 T :=
  ⟨![self.m_ 0 + rhs.m_ 0,
     self.m_ 1 + rhs.m_ 1,
     self.m_ 2 + rhs.m_ 2,
     self.m_ 3 + rhs.m_ 3,
     self.m_ 4 + rhs.m_ 4,
     self.m_ 5 + rhs.m_ 5,
     self.m_ 6 + rhs.m_ 6,
     self.m_ 7 + rhs.m_ 7,
     self.m_ 8 + rhs.m_ 8]⟩

/-- The operator `tmat3::operator+`: `tmat3(*this) += rhs`. -/
def add [Add T] (self rhs : tmat3 T) : tmat3 T :=
  addAssign (copy self) rhs

/-- The operator `tmat3::operator*=(const T& rhs)`, statement by statement:
each `m_[k] *= rhs` reads `rhs` through the reference at that moment. -/
def mulAssignScalar [Mul T] (self : tmat3 T) (rhs : ScalarRef T 9) : tmat3 T :=
  let m_ := self.m_
  let m_ := Function.update m_ 0 (m_ 0 * rhs.read m_)
  let m_ := Function.update m_ 1 (m_ 1 * rhs.read m_)
  let m_ := Function.update m_ 2 (m_ 2 * rhs.read m_)
  let m_ := Function.update m_ 3 (m_ 3 * rhs.read m_)
  let m_ := Function.update m_ 4 (m_ 4 * rhs.read m_)
  let m_ := Function.update m_ 5 (m_ 5 * rhs.read m_)
  let m_ := Function.update m_ 6 (m_ 6 * rhs.read m_)
  let m_ := Function.update m_ 7 (m_ 7 * rhs.read m_)
  let m_ := Function.update m_ 8 (m_ 8 * rhs.read m_)
  ⟨m_⟩

/-- The operator `tmat3::operator*(const T& rhs)`: `tmat3(*this) *= rhs`.
The compound operator runs on the temporary copy, so `rhs` is never bound
into the array being written and keeps its value. -/
def mulScalar [Mul T] (self : tmat3 T) (rhs : T) : tmat3 T :=
  mulAssignScalar (copy self) (ScalarRef.outside rhs)

/-- The operator `tmat3::operator/=(const T& rhs)`, statement by statement:
each `m_[k] /= rhs` reads `rhs` through the reference at that moment. -/
def divAssignScalar [Div T] (self : tmat3 T) (rhs : ScalarRef T 9) : tmat3 T :=
  let m_ := self.m_
  let m_ := Function.update m_ 0 (m_ 0 / rhs.read m_)
  let m_ := Function.update m_ 1 (m_ 1 / rhs.read m_)
  let m_ := Function.update m_ 2 (m_ 2 / rhs.read m_)
  let m_ := Function.update m_ 3 (m_ 3 / rhs.read m_)
  let m_ := Function.update m_ 4 (m_ 4 / rhs.read m_)
  let m_ := Function.update m_ 5 (m_ 5 / rhs.read m_)
  let m_ := Function.update m_ 6 (m_ 6 / rhs.read m_)
  let m_ := Function.update m_ 7 (m_ 7 / rhs.read m_)
  let m_ := Function.update m_ 8 (m_ 8 / rhs.read m_)
  ⟨m_⟩

/-- The operator `tmat3::operator/(const T& rhs)`: `tmat3(*this) /= rhs`.
The compound operator runs on the temporary copy, so `rhs` is never bound
into the array being written and keeps its value. -/
def divScalar [Div T] (self : tmat3 T) (rhs : T) : tmat3 T :=
  divAssignScalar (copy self) (ScalarRef.outside rhs)

/-- An assignment `m[r][c] = val` through the proxy returned by the
non-const `operator[]`: the proxy points into `m_`, so the write lands there. -/
def assign (m : tmat3 T) (r c : Fin 3) (val : T) : tmat3 T :=
  ⟨(m.subscript r).assign c val⟩

end tmat3

/-- The global `operator*(const tmat3<T>& lhs, const tvec3<T>& rhs)`. -/
def tmat3.mulVec {T : Type} [Zero T] [Add T] [Mul T] (lhs : tmat3 T) (rhs : tvec T 3) :
    tvec T 3 :=
  let x := ((lhs.subscript 0).subscript 0 * rhs.x) + ((lhs.subscript 0).subscript 1 * rhs.y)
    + ((lhs.subscript 0).subscript 2 * rhs.z)
  let y := ((lhs.subscript 1).subscript 0 * rhs.x) + ((lhs.subscript 1).subscript 1 * rhs.y)
    + ((lhs.subscript 1).subscript 2 * rhs.z)
  let z := ((lhs.subscript 2).subscript 0 * rhs.x) + ((lhs.subscript 2).subscript 1 * rhs.y)
    + ((lhs.subscript 2).subscript 2 * rhs.z)
  tvec.ofArgs [x, y, z]

/-- The global `operator*(const T& lhs, const tmat3<T>& rhs)`: `tmat3<T>(rhs) * lhs`. -/
def tmat3.scalarMul {T : Type} [Mul T] (lhs : T) (rhs : tmat3 T) : tmat3 T :=
  (copy rhs).mulScalar lhs

/-- The global `operator*(const tvec3<T>& lhs, const tmat3<T>& rhs)`. -/
def tmat3.vecMul {T : Type} [Zero T] [Add T] [Mul T] (lhs : tvec T 3) (rhs : tmat3 T) :
    tvec T 3 :=
  let x := (lhs.x * (rhs.subscript 0).subscript 0) + (lhs.y * (rhs.subscript 1).subscript 0) + (lhs.z * (rhs.subscript 2).subscript 0)
  let y := (lhs.x * (rhs.subscript 0).subscript 1) + (lhs.y * (rhs.subscript 1).subscript 1) + (lhs.z * (rhs.subscript 2).subscript 1)
  let z := (lhs.x * (rhs.subscript 0).subscript 2) + (lhs.y * (rhs.subscript 1).subscript 2) + (lhs.z * (rhs.subscript 2).subscript 2)
  tvec.ofArgs [x, y, z]

/-- The global `outer(const tvec3<T>& a, const tvec3<T>& b)`. -/
def tmat3.outer {T : Type} [Zero T] [One T] [Mul T] (a b : tvec T 3) : tmat3 T :=
  let product : tmat3 T := tmat3.new
  let product := product.assign 0 0 (a.x * b.x)
  let product := product.assign 0 1 (a.x * b.y)
  let product := product.assign 0 2 (a.x * b.z)
  let product := product.assign 1 0 (a.y * b.x)
  let product := product.assign 1 1 (a.y * b.y)
  let product := product.assign 1 2 (a.y * b.z)
  let product := product.assign 2 0 (a.z * b.x)
  let product := product.assign 2 1 (a.z * b.y)
  let product := product.assign 2 2 (a.z * b.z)
  product

/-! ## mat.h : tmat4 -/

/-- The class `tmat4<T>`: `T m_[16]`. -/
structure tmat4 (T : Type) where
  m_ : Fin 16 → T

namespace tmat4
variable {T : Type}

/-- The copy constructor `tmat4(const tmat4& m)`. -/
def copy (m : tmat4 T) : tmat4 T :=
  ⟨![m.m_ 0, m.m_ 1, m.m_ 2, m.m_ 3, m.m_ 4, m.m_ 5, m.m_ 6, m.m_ 7,
     m.m_ 8, m.m_ 9, m.m_ 10, m.m_ 11, m.m_ 12, m.m_ 13, m.m_ 14, m.m_ 15]⟩

/-- The conversion `operator const T*()`: `&m_[0]`, the raw buffer. -/
def toPtr (m : tmat4 T) : Fin 16 → T := m.m_

/-- The accessor `operator[](int index)`: `ArrayProxy<T, 4>(&m_[index])`. -/
def subscript (m : tmat4 T) (index : Fin 4) : ArrayProxy T 4 16 :=
  ⟨m.m_, index.val, by have := index.isLt; omega⟩

/-- The operator `tmat4::operator-=`. -/
def subAssign [Sub T] (self rhs : tmat4 T) : tmat4 T :=
  ⟨![self.m_ 0 - rhs.m_ 0,
     self.m_ 1 - rhs.m_ 1,
     self.m_ 2 - rhs.m_ 2,
     self.m_ 3 - rhs.m_ 3,
     self.m_ 4 - rhs.m_ 4,
     self.m_ 5 - rhs.m_ 5,
     self.m_ 6 - rhs.m_ 6,
     self.m_ 7 - rhs.m_ 7,
     self.m_ 8 - rhs.m_ 8,
     self.m_ 9 - rhs.m_ 9,
     self.m_ 10 - rhs.m_ 10,
     self.m_ 11 - rhs.m_ 11,
     self.m_ 12 - rhs.m_ 12,
     self.m_ 13 - rhs.m_ 13,
     self.m_ 14 - rhs.m_ 14,
     self.m_ 15 - rhs.m_ 15]⟩

/-- The operator `tmat4::operator-`: `tmat4(*this) -= rhs`. -/
def sub [Sub T] (self rhs : tmat4 T) : tmat4 T :=
  subAssign (copy self) rhs

/-- The operator `tmat4::operator*=(const tmat4&)`. -/
def mulAssign [Add T] [Mul T] (self rhs : tmat4 T) : tmat4 T :=
  let c0r0 := (self.m_ 0 * rhs.m_ 0) + (self.m_ 4 * rhs.m_ 1) + (self.m_ 8 * rhs.m_ 2) + (self.m_ 12 * rhs.m_ 3)
  let c0r1 := (self.m_ 1 * rhs.m_ 0) + (self.m_ 5 * rhs.m_ 1) + (self.m_ 9 * rhs.m_ 2) + (self.m_ 13 * rhs.m_ 3)
  let c0r2 := (self.m_ 2 * rhs.m_ 0) + (self.m_ 6 * rhs.m_ 1) + (self.m_ 10 * rhs.m_ 2) + (self.m_ 14 * rhs.m_ 3)
  let c0r3 := (self.m_ 3 * rhs.m_ 0) + (self.m_ 7 * rhs.m_ 1) + (self.m_ 11 * rhs.m_ 2) + (self.m_ 15 * rhs.m_ 3)
  let c1r0 := (self.m_ 0 * rhs.m_ 4) + (self.m_ 4 * rhs.m_ 5) + (self.m_ 8 * rhs.m_ 6) + (self.m_ 12 * rhs.m_ 7)
  let c1r1 := (self.m_ 1 * rhs.m_ 4) + (self.m_ 5 * rhs.m_ 5) + (self.m_ 9 * rhs.m_ 6) + (self.m_ 13 * rhs.m_ 7)
  let c1r2 := (self.m_ 2 * rhs.m_ 4) + (self.m_ 6 * rhs.m_ 5) + (self.m_ 10 * rhs.m_ 6) + (self.m_ 14 * rhs.m_ 7)
  let c1r3 := (self.m_ 3 * rhs.m_ 4) + (self.m_ 7 * rhs.m_ 5) + (self.m_ 11 * rhs.m_ 6) + (self.m_ 15 * rhs.m_ 7)
  let c2r0 := (self.m_ 0 * rhs.m_ 8) + (self.m_ 4 * rhs.m_ 9) + (self.m_ 8 * rhs.m_ 10) + (self.m_ 12 * rhs.m_ 11)
  let c2r1 := (self.m_ 1 * rhs.m_ 8) + (self.m_ 5 * rhs.m_ 9) + (self.m_ 9 * rhs.m_ 10) + (self.m_ 13 * rhs.m_ 11)
  let c2r2 := (self.m_ 2 * rhs.m_ 8) + (self.m_ 6 * rhs.m_ 9) + (self.m_ 10 * rhs.m_ 10) + (self.m_ 14 * rhs.m_ 11)
  let c2r3 := (self.m_ 3 * rhs.m_ 8) + (self.m_ 7 * rhs.m_ 9) + (self.m_ 11 * rhs.m_ 10) + (self.m_ 15 * rhs.m_ 11)
  let c3r0 := (self.m_ 0 * rhs.m_ 12) + (self.m_ 4 * rhs.m_ 13) + (self.m_ 8 * rhs.m_ 14) + (self.m_ 12 * rhs.m_ 15)
  let c3r1 := (self.m_ 1 * rhs.m_ 12) + (self.m_ 5 * rhs.m_ 13) + (self.m_ 9 * rhs.m_ 14) + (self.m_ 13 * rhs.m_ 15)
  let c3r2 := (self.m_ 2 * rhs.m_ 12) + (self.m_ 6 * rhs.m_ 13) + (self.m_ 10 * rhs.m_ 14) + (self.m_ 14 * rhs.m_ 15)
  let c3r3 := (self.m_ 3 * rhs.m_ 12) + (self.m_ 7 * rhs.m_ 13) + (self.m_ 11 * rhs.m_ 14) + (self.m_ 15 * rhs.m_ 15)
  ⟨![c0r0, c0r1, c0r2, c0r3, c1r0, c1r1, c1r2, c1r3,
     c2r0, c2r1, c2r2, c2r3, c3r0, c3r1, c3r2, c3r3]⟩

/-- The operator `tmat4::operator*(const tmat4&)`: `tmat4(*this) *= rhs`. -/
def mul [Add T] [Mul T] (self rhs : tmat4 T) : tmat4 T :=
  mulAssign (copy self) rhs

/-- The member `tmat4::setIdentity()`: it assigns every element of `m_`. -/
def setIdentity [Zero T] [One T] (_self : tmat4 T) : tmat4 T :=
  ⟨![1, 0, 0, 0, 0, 1, 0, 0, 0, 0, 1, 0, 0, 0, 0, 1]⟩

/-- The constructor `tmat4()`: `setIdentity()` on the fresh object, whose
storage is indeterminate and fully overwritten (zeros stand for it here). -/
def new [Zero T] [One T] : tmat4 T :=
  setIdentity ⟨fun _ => 0⟩

/-- The member `tmat4::transpose()`, statement by statement. -/
def transpose (self : tmat4 T) : tmat4 T :=
  let m_ := self.m_
  let tmp_val := m_ 1
  let m_ := Function.update m_ 1 (m_ 4)
  let m_ := Function.update m_ 4 tmp_val
  let tmp_val := m_ 2
  let m_ := Function.update m_ 2 (m_ 8)
  let m_ := Function.update m_ 8 tmp_val
  let tmp_val := m_ 3
  let m_ := Function.update m_ 3 (m_ 12)
  let m_ := Function.update m_ 12 tmp_val
  let tmp_val := m_ 6
  let m_ := Function.update m_ 6 (m_ 9)
  let m_ := Function.update m_ 9 tmp_val
  let tmp_val := m_ 7
  let m_ := Function.update m_ 7 (m_ 13)
  let m_ := Function.update m_ 13 tmp_val
  let tmp_val := m_ 11
  let m_ := Function.update m_ 11 (m_ 14)
  let m_ := Function.update m_ 14 tmp_val
  ⟨m_⟩

/-- The operator `tmat4::operator+=`. -/
def addAssign [Add T] (self rhs : tmat4 T) : tmat4 T :=
  ⟨![self.m_ 0 + rhs.m_ 0,
     self.m_ 1 + rhs.m_ 1,
     self.m_ 2 + rhs.m_ 2,
     self.m_ 3 + rhs.m_ 3,
     self.m_ 4 + rhs.m_ 4,
     self.m_ 5 + rhs.m_ 5,
     self.m_ 6 + rhs.m_ 6,
     self.m_ 7 + rhs.m_ 7,
     self.m_ 8 + rhs.m_ 8,
     self.m_ 9 + rhs.m_ 9,
     self.m_ 10 + rhs.m_ 10,
     self.m_ 11 + rhs.m_ 11,
     self.m_ 12 + rhs.m_ 12,
     self.m_ 13 + rhs.m_ 13,
     self.m_ 14 + rhs.m_ 14,
     self.m_ 15 + rhs.m_ 15]⟩

/-- The operator `tmat4::operator+`: `tmat4(*this) += rhs`. -/
def add [Add T] (self rhs : tmat4 T) : tmat4 T :=
  addAssign (copy self) rhs

/-- The operator `tmat4::operator*=(const T& rhs)`, statement by statement:
each `m_[k] *= rhs` reads `rhs` through the reference at that moment. -/
def mulAssignScalar [Mul T] (self : tmat4 T) (rhs : ScalarRef T 16) : tmat4 T :=
  let m_ := self.m_
  let m_ := Function.update m_ 0 (m_ 0 * rhs.read m_)
  let m_ := Function.update m_ 1 (m_ 1 * rhs.read m_)
  let m_ := Function.update m_ 2 (m_ 2 * rhs.read m_)
  let m_ := Function.update m_ 3 (m_ 3 * rhs.read m_)
  let m_ := Function.update m_ 4 (m_ 4 * rhs.read m_)
  let m_ := Function.update m_ 5 (m_ 5 * rhs.read m_)
  let m_ := Function.update m_ 6 (m_ 6 * rhs.read m_)
  let m_ := Function.update m_ 7 (m_ 7 * rhs.read m_)
  let m_ := Function.update m_ 8 (m_ 8 * rhs.read m_)
  let m_ := Function.update m_ 9 (m_ 9 * rhs.read m_)
  let m_ := Function.update m_ 10 (m_ 10 * rhs.read m_)
  let m_ := Function.update m_ 11 (m_ 11 * rhs.read m_)
  let m_ := Function.update m_ 12 (m_ 12 * rhs.read m_)
  let m_ := Function.update m_ 13 (m_ 13 * rhs.read m_)
  let m_ := Function.update m_ 14 (m_ 14 * rhs.read m_)
  let m_ := Function.update m_ 15 (m_ 15 * rhs.read m_)
  ⟨m_⟩

/-- The operator `tmat4::operator*(const T& rhs)`: `tmat4(*this) *= rhs`.
The compound operator runs on the temporary copy, so `rhs` is never bound
into the array being written and keeps its value. -/
def mulScalar [Mul T] (self : tmat4 T) (rhs : T) : tmat4 T :=
  mulAssignScalar (copy self) (ScalarRef.outside rhs)

/-- The operator `tmat4::operator/=(const T& rhs)`, statement by statement:
each `m_[k] /= rhs` reads `rhs` through the reference at that moment. -/
def divAssignScalar [Div T] (self : tmat4 T) (rhs : ScalarRef T 16) : tmat4 T :=
  let m_ := self.m_
  let m_ := Function.update m_ 0 (m_ 0 / rhs.read m_)
  let m_ := Function.update m_ 1 (m_ 1 / rhs.read m_)
  let m_ := Function.update m_ 2 (m_ 2 / rhs.read m_)
  let m_ := Function.update m_ 3 (m_ 3 / rhs.read m_)
  let m_ := Function.update m_ 4 (m_ 4 / rhs.read m_)
  let m_ := Function.update m_ 5 (m_ 5 / rhs.read m_)
  let m_ := Function.update m_ 6 (m_ 6 / rhs.read m_)
  let m_ := Function.update m_ 7 (m_ 7 / rhs.read m_)
  let m_ := Function.update m_ 8 (m_ 8 / rhs.read m_)
  let m_ := Function.update m_ 9 (m_ 9 / rhs.read m_)
  let m_ := Function.update m_ 10 (m_ 10 / rhs.read m_)
  let m_ := Function.update m_ 11 (m_ 11 / rhs.read m_)
  let m_ := Function.update m_ 12 (m_ 12 / rhs.read m_)
  let m_ := Function.update m_ 13 (m_ 13 / rhs.read m_)
  let m_ := Function.update m_ 14 (m_ 14 / rhs.read m_)
  let m_ := Function.update m_ 15 (m_ 15 / rhs.read m_)
  ⟨m_⟩

/-- The operator `tmat4::operator/(const T& rhs)`: `tmat4(*this) /= rhs`.
The compound operator runs on the temporary copy, so `rhs` is never bound
into the array being written and keeps its value. -/
def divScalar [Div T] (self : tmat4 T) (rhs : T) : tmat4 T :=
  divAssignScalar (copy self) (ScalarRef.outside rhs)

/-- An assignment `m[r][c] = val` through the proxy returned by the
non-const `operator[]`: the proxy points into `m_`, so the write lands there. -/
def assign (m : tmat4 T) (r c : Fin 4) (val : T) : tmat4 T :=
  ⟨(m.subscript r).assign c val⟩

end tmat4

/-- The global `operator*(const tmat4<T>& lhs, const tvec4<T>& rhs)`. -/
def tmat4.mulVec {T : Type} [Zero T] [Add T] [Mul T] (lhs : tmat4 T) (rhs : tvec T 4) :
    tvec T 4 :=
  let x := ((lhs.subscript 0).subscript 0 * rhs.x) + ((lhs.subscript 0).subscript 1 * rhs.y)
    + ((lhs.subscript 0).subscript 2 * rhs.z) + ((lhs.subscript 0).subscript 3 * rhs.w)
  let y := ((lhs.subscript 1).subscript 0 * rhs.x) + ((lhs.subscript 1).subscript 1 * rhs.y)
    + ((lhs.subscript 1).subscript 2 * rhs.z) + ((lhs.subscript 1).subscript 3 * rhs.w)
  let z := ((lhs.subscript 2).subscript 0 * rhs.x) + ((lhs.subscript 2).subscript 1 * rhs.y)
    + ((lhs.subscript 2).subscript 2 * rhs.z) + ((lhs.subscript 2).subscript 3 * rhs.w)
  let w := ((lhs.subscript 3).subscript 0 * rhs.x) + ((lhs.subscript 3).subscript 1 * rhs.y)
    + ((lhs.subscript 3).subscript 2 * rhs.z) + ((lhs.subscript 3).subscript 3 * rhs.w)
  tvec.ofArgs [x, y, z, w]

/-- The global `operator*(const T& lhs, const tmat4<T>& rhs)`: `tmat4<T>(rhs) * lhs`. -/
def tmat4.scalarMul {T : Type} [Mul T] (lhs : T) (rhs : tmat4 T) : tmat4 T :=
  (copy rhs).mulScalar lhs

/-- The global `operator*(const tvec4<T>& lhs, const tmat4<T>& rhs)`. -/
def tmat4.vecMul {T : Type} [Zero T] [Add T] [Mul T] (lhs : tvec T 4) (rhs : tmat4 T) :
    tvec T 4 :=
  let x := (lhs.x * (rhs.subscript 0).subscript 0) + (lhs.y * (rhs.subscript 1).subscript 0) + (lhs.z * (rhs.subscript 2).subscript 0) + (lhs.w * (rhs.subscript 3).subscript 0)
  let y := (lhs.x * (rhs.subscript 0).subscript 1) + (lhs.y * (rhs.subscript 1).subscript 1) + (lhs.z * (rhs.subscript 2).subscript 1) + (lhs.w * (rhs.subscript 3).subscript 1)
  let z := (lhs.x * (rhs.subscript 0).subscript 2) + (lhs.y * (rhs.subscript 1).subscript 2) + (lhs.z * (rhs.subscript 2).subscript 2) + (lhs.w * (rhs.subscript 3).subscript 2)
  let w := (lhs.x * (rhs.subscript 0).subscript 3) + (lhs.y * (rhs.subscript 1).subscript 3) + (lhs.z * (rhs.subscript 2).subscript 3) + (lhs.w * (rhs.subscript 3).subscript 3)
  tvec.ofArgs [x, y, z, w]

/-- The global `outer(const tvec4<T>& a, const tvec4<T>& b)`. -/
def tmat4.outer {T : Type} [Zero T] [One T] [Mul T] (a b : tvec T 4) : tmat4 T :=
  let product : tmat4 T := tmat4.new
  let product := product.assign 0 0 (a.x * b.x)
  let product := product.assign 0 1 (a.x * b.y)
  let product := product.assign 0 2 (a.x * b.z)
  let product := product.assign 0 3 (a.x * b.w)
  let product := product.assign 1 0 (a.y * b.x)
  let product := product.assign 1 1 (a.y * b.y)
  let product := product.assign 1 2 (a.y * b.z)
  let product := product.assign 1 3 (a.y * b.w)
  let product := product.assign 2 0 (a.z * b.x)
  let product := product.assign 2 1 (a.z * b.y)
  let product := product.assign 2 2 (a.z * b.z)
  let product := product.assign 2 3 (a.z * b.w)
  let product := product.assign 3 0 (a.w * b.x)
  let product := product.assign 3 1 (a.w * b.y)
  let product := product.assign 3 2 (a.w * b.z)
  let product := product.assign 3 3 (a.w * b.w)
  product

/-! ## A floating-point element type with its special values -/

/-- The values of a floating-point element type (`float`, `double`): the
finite values, the two infinities and NaN.  Finite values are kept as
rationals and computed exactly (rounding, overflow and the sign of zero are
left out); an operation with an infinite or NaN operand follows IEEE 754. -/
inductive FloatVal where
  | finite (q : Rat)
  | posInf
  | negInf
  | nan
  deriving DecidableEq

/-- Floating-point multiplication: `0 * inf` is NaN, NaN propagates, and the
sign of an infinite product is the product of the signs. -/
def FloatVal.mul : FloatVal → FloatVal → FloatVal
  | FloatVal.nan, _ => FloatVal.nan
  | _, FloatVal.nan => FloatVal.nan
  | FloatVal.finite a, FloatVal.finite b => FloatVal.finite (a * b)
  | FloatVal.finite a, FloatVal.posInf =>
    if a = 0 then FloatVal.nan else if 0 < a then FloatVal.posInf else FloatVal.negInf
  | FloatVal.finite a, FloatVal.negInf =>
    if a = 0 then FloatVal.nan else if 0 < a then FloatVal.negInf else FloatVal.posInf
  | FloatVal.posInf, FloatVal.finite b =>
    if b = 0 then FloatVal.nan else if 0 < b then FloatVal.posInf else FloatVal.negInf
  | FloatVal.negInf, FloatVal.finite b =>
    if b = 0 then FloatVal.nan else if 0 < b then FloatVal.negInf else FloatVal.posInf
  | FloatVal.posInf, FloatVal.posInf => FloatVal.posInf
  | FloatVal.posInf, FloatVal.negInf => FloatVal.negInf
  | FloatVal.negInf, FloatVal.posInf => FloatVal.negInf
  | FloatVal.negInf, FloatVal.negInf => FloatVal.posInf

/-- Floating-point addition: `inf + (-inf)` is NaN, NaN propagates, and an
infinity absorbs a finite operand. -/
def FloatVal.add : FloatVal → FloatVal → FloatVal
  | FloatVal.nan, _ => FloatVal.nan
  | _, FloatVal.nan => FloatVal.nan
  | FloatVal.finite a, FloatVal.finite b => FloatVal.finite (a + b)
  | FloatVal.finite _, FloatVal.posInf => FloatVal.posInf
  | FloatVal.finite _, FloatVal.negInf => FloatVal.negInf
  | FloatVal.posInf, FloatVal.finite _ => FloatVal.posInf
  | FloatVal.negInf, FloatVal.finite _ => FloatVal.negInf
  | FloatVal.posInf, FloatVal.posInf => FloatVal.posInf
  | FloatVal.negInf, FloatVal.negInf => FloatVal.negInf
  | FloatVal.posInf, FloatVal.negInf => FloatVal.nan
  | FloatVal.negInf, FloatVal.posInf => FloatVal.nan

/-- The literal `0` converted to the floating-point type. -/
instance : Zero FloatVal := ⟨FloatVal.finite 0⟩

/-- The literal `1` converted to the floating-point type. -/
instance : One FloatVal := ⟨FloatVal.finite 1⟩

/-- The operator `+` of the floating-point type. -/
instance : Add FloatVal := ⟨FloatVal.add⟩

/-- The operator `*` of the floating-point type. -/
instance : Mul FloatVal := ⟨FloatVal.mul⟩

/-! ## Reference definitions and sample inputs -/

/-- The textbook cross product, as the specification words it:
`(u.y*v.z - u.z*v.y, u.z*v.x - u.x*v.z, u.x*v.y - u.y*v.x)`. -/
def crossTextbook {T : Type} [Mul T] [Sub T] (u v : tvec T 3) : tvec T 3 :=
  ⟨![u.y * v.z - u.z * v.y, u.z * v.x - u.x * v.z, u.x * v.y - u.y * v.x]⟩

/-- The integer vector `(1, 2, 3)`. -/
def sampleVec123 : tvec Int 3 := ⟨![1, 2, 3]⟩

/-- The 2x2 integer matrix with raw buffer `{1, 0, 0, 1}`. -/
def sampleMat2 : tmat2 Int := ⟨![1, 0, 0, 1]⟩

/-- The fractional vector `(0.5, 0.5, 0.5)`. -/
def sampleHalves : tvec Rat 3 := ⟨![1/2, 1/2, 1/2]⟩

/-- The fractional-typed vector `(1, 1, 1)`. -/
def sampleOnes : tvec Rat 3 := ⟨![1, 1, 1]⟩

/-- The fractional-typed vector `(3, 4, 0)`, of Euclidean length 5. -/
def sampleVec340 : tvec Rat 3 := ⟨![3, 4, 0]⟩

/-- The fractional vector `(0.5, 1, 1)`. -/
def sampleCrossU : tvec Rat 3 := ⟨![1/2, 1, 1]⟩

/-- The fractional-typed vector `(1, 0, 1)`. -/
def sampleCrossV : tvec Rat 3 := ⟨![1, 0, 1]⟩

/-- The integer vector `(1, 2)`. -/
def sampleVec12 : tvec Int 2 := ⟨![1, 2]⟩

/-- The integer vector `(3, 4)`. -/
def sampleVec34 : tvec Int 2 := ⟨![3, 4]⟩

/-- The integer vector `(0, 0, 0)`. -/
def sampleVecZero : tvec Int 3 := ⟨![0, 0, 0]⟩

/-- A square root on `int` values, exact on perfect squares. -/
def sampleSqrt (t : Int) : Int := (Nat.sqrt t.toNat : Int)

/-- The running sum the specification describes for `dot`: an `int`
accumulator starts at `0`; each product in turn is added to it and the sum is
converted back to `int`. -/
def truncatedSum {T : Type} [IntConv T] [Add T] (products : List T) : Int :=
  products.foldl (fun acc p => IntConv.toInt (IntConv.ofInt acc + p)) 0

/-- The products `v1[i] * v2[i]` for `i < min(N1, N2)`, in index order. -/
def commonProducts {T : Type} [Mul T] {N1 N2 : Nat} (v1 : tvec T N1) (v2 : tvec T N2) :
    List T :=
  List.ofFn (fun i : Fin (min N1 N2) =>
    v1.data ⟨i.val, Nat.lt_of_lt_of_le i.isLt (Nat.min_le_left N1 N2)⟩
      * v2.data ⟨i.val, Nat.lt_of_lt_of_le i.isLt (Nat.min_le_right N1 N2)⟩)

/-- A fractional value whose conversion to a 32-bit `int` is defined: the
value with its fractional part dropped fits in `int`, that is
`-2^31 - 1 < q < 2^31`. -/
def inIntRange (q : Rat) : Prop :=
  -2147483649 < q ∧ q < 2147483648

/-- Whether `inIntRange` holds can be computed. -/
instance inIntRange.decidable (q : Rat) : Decidable (inIntRange q) := by
  unfold inIntRange
  exact inferInstance

/-- Every conversion to `int` met while the running sum of `products` is
formed from the accumulator `acc` is defined. -/
def sumsInRange : List Rat → Int → Prop
  | [], _ => True
  | p :: ps, acc =>
    inIntRange (IntConv.ofInt acc + p)
      ∧ sumsInRange ps (IntConv.toInt (IntConv.ofInt acc + p : Rat))

/-- Whether `sumsInRange` holds can be computed. -/
instance sumsInRange.decidable : (ps : List Rat) → (acc : Int) → Decidable (sumsInRange ps acc)
  | [], _ => isTrue trivial
  | p :: ps, acc =>
    @instDecidableAnd _ _ (inIntRange.decidable _)
      (sumsInRange.decidable ps (IntConv.toInt (IntConv.ofInt acc + p : Rat)))

/-- The floating-point vector `(inf, 1)`. -/
def sampleInfOne : tvec FloatVal 2 := ⟨![FloatVal.posInf, FloatVal.finite 1]⟩

/-- The 2x2 integer matrix with raw buffer `{2, 4, 6, 8}`. -/
def sampleMat2468 : tmat2 Int := ⟨![2, 4, 6, 8]⟩

/-! ## Theorems -/

section TransformLemmas
variable {T : Type} {N M : Nat}

/-- What the in-place `std::transform` loop leaves at position `i`: positions
`first ≤ i < first + count` that also exist in `rhs` hold `op a[i] rhs[i]`
(with the value `a[i]` had before the loop), all others are untouched. -/
theorem transform_apply (op : T → T → T) (rhs : Fin M → T) (count : Nat) :
    ∀ (first : Nat) (a : Fin N → T) (i : Fin N),
      transform op rhs count first a i =
        if h : first ≤ i.val ∧ i.val < first + count ∧ i.val < M
        then op (a i) (rhs ⟨i.val, h.2.2⟩) else a i := by
  induction count with
  | zero =>
    intro first a i
    have hc : ¬ (first ≤ i.val ∧ i.val < first + 0 ∧ i.val < M) := by omega
    simp only [transform, dif_neg hc]
  | succ count ih =>
    intro first a i
    unfold transform
    by_cases h : first < N ∧ first < M
    · rw [dif_pos h, ih]
      by_cases hi : i.val = first
      · have hi2 : i = ⟨first, h.1⟩ := Fin.ext hi
        subst hi2
        have hc1 : ¬ (first + 1 ≤ first ∧ first < first + 1 + count ∧ first < M) := by omega
        have hc2 : first ≤ first ∧ first < first + (count + 1) ∧ first < M :=
          ⟨le_refl _, by omega, h.2⟩
        simp only [dif_neg hc1, dif_pos hc2, Function.update_same]
      · have hne : i ≠ ⟨first, h.1⟩ := fun e => hi (congrArg Fin.val e)
        by_cases hc : first ≤ i.val ∧ i.val < first + (count + 1) ∧ i.val < M
        · have hc1 : first + 1 ≤ i.val ∧ i.val < first + 1 + count ∧ i.val < M := by omega
          simp only [dif_pos hc1, dif_pos hc, Function.update_noteq hne]
        · have hc1 : ¬ (first + 1 ≤ i.val ∧ i.val < first + 1 + count ∧ i.val < M) := by omega
          simp only [dif_neg hc1, dif_neg hc, Function.update_noteq hne]
    · rw [dif_neg h]
      have hc : ¬ (first ≤ i.val ∧ i.val < first + (count + 1) ∧ i.val < M) := by
        have := i.isLt
        omega
      rw [dif_neg hc]

/-- The loop of the vector compound operators, run over `min N M` elements
from the start of the array. -/
theorem transform_from_start (op : T → T → T) (rhs : Fin M → T) (a : Fin N → T) (i : Fin N) :
    transform op rhs (min N M) 0 a i =
      if h : i.val < min N M
      then op (a i) (rhs ⟨i.val, (Nat.lt_min.mp h).2⟩) else a i := by
  rw [transform_apply]
  have hi := i.isLt
  by_cases h : i.val < min N M
  · have hc : 0 ≤ i.val ∧ i.val < 0 + min N M ∧ i.val < M :=
      ⟨Nat.zero_le _, by omega, (Nat.lt_min.mp h).2⟩
    rw [dif_pos hc, dif_pos h]
  · have hc : ¬ (0 ≤ i.val ∧ i.val < 0 + min N M ∧ i.val < M) := by omega
    rw [dif_neg hc, dif_neg h]

end TransformLemmas

section IndexLemmas

theorem flat_lt_two (r c : Fin 2) : c.val * 2 + r.val < 4 := by
  have := r.isLt
  have := c.isLt
  omega

theorem flat_lt_three (r c : Fin 3) : c.val * 3 + r.val < 9 := by
  have := r.isLt
  have := c.isLt
  omega

theorem flat_lt_four (r c : Fin 4) : c.val * 4 + r.val < 16 := by
  have := r.isLt
  have := c.isLt
  omega

end IndexLemmas

section VectorLemmas

/-- Two vectors with the same elements are equal. -/
theorem tvec.eq_of_data {T : Type} {N : Nat} (a b : tvec T N)
    (h : ∀ i, a.data i = b.data i) : a = b := by
  cases a
  cases b
  congr
  funext i
  exact h i

/-- Where dividing by `1` is the identity, `normalize()` changes no element:
its divisor is the vector `tvec(l)`, which holds ones. -/
theorem normalize_data_of_div_one {T F : Type} {N : Nat} [Zero F] [One F] [DecidableEq F]
    [IntConv T] [Add T] [Mul T] [One T] [Div T] (hdiv : ∀ x : T, x / 1 = x)
    (sqrt : T → F) (cast : F → T) (v : tvec T N) (i : Fin N) :
    (tvec.normalize sqrt cast v).data i = v.data i := by
  have hi : i.val < min N N := by
    rw [Nat.min_self]
    exact i.isLt
  unfold tvec.normalize
  by_cases hl : tvec.length sqrt v ≠ 0 ∧ tvec.length sqrt v ≠ 1
  · simp only [if_pos hl, tvec.divAssignScalar, tvec.divAssign, transform_from_start, dif_pos hi,
      tvec.ofScalar, tvec.fill, hdiv]
  · simp only [if_neg hl]

/-- One step of the `int` accumulator on the fractional summand `0.5 * 1`. -/
theorem toInt_zero_add_half :
    IntConv.toInt (IntConv.ofInt (0 : Int) + (1 / 2 : Rat) * 1) = 0 := by
  simp only [IntConv.toInt, IntConv.ofInt]
  norm_num

/-- The library's `dot` of `(3, 4, 0)` with itself. -/
theorem dot_sampleVec340 : tvec.dot sampleVec340 sampleVec340 = 25 := by
  have h : tvec.dot sampleVec340 sampleVec340
      = IntConv.ofInt (IntConv.toInt (IntConv.ofInt (IntConv.toInt (IntConv.ofInt
          (IntConv.toInt (IntConv.ofInt (0 : Int) + (3 : Rat) * 3)) + (4 : Rat) * 4))
            + (0 : Rat) * 0)) := rfl
  rw [h]
  simp only [IntConv.toInt, IntConv.ofInt]
  norm_num

end VectorLemmas

section DotLemmas

/-- On the element type `int` the accumulator of `dot` loses nothing: for
length-3 operands `dot` is the plain sum of the three products. -/
theorem dot_int_three (u v : tvec Int 3) :
    tvec.dot u v = u.data 0 * v.data 0 + u.data 1 * v.data 1 + u.data 2 * v.data 2 := by
  have h : tvec.dot u v
      = 0 + u.data 0 * v.data 0 + u.data 1 * v.data 1 + u.data 2 * v.data 2 := rfl
  rw [h, Int.zero_add]

/-- The accumulator steps of `dot((0.5, 1, 1), (1, 0.5, -1))`. -/
theorem toInt_steps_cross_sample :
    IntConv.toInt (IntConv.ofInt (0 : Int) + (1 / 2 : Rat) * (1 * 1 - 1 * 0)) = 0
    ∧ IntConv.toInt (IntConv.ofInt (0 : Int) + (1 : Rat) * (1 * 1 - 1 / 2 * 1)) = 0
    ∧ IntConv.toInt (IntConv.ofInt (0 : Int) + (1 : Rat) * (1 / 2 * 0 - 1 * 1)) = -1 := by
  simp only [IntConv.toInt, IntConv.ofInt]
  refine ⟨?_, ?_, ?_⟩
  · norm_num
  · norm_num
  · norm_num [Int.ceil_eq_iff]

end DotLemmas

section MatrixLemmas
variable {T : Type}

/-- Element `i` of `M * v` for order 2, as a sum over the columns. -/
theorem tmat2_mulVec_apply [CommRing T] (m : tmat2 T) (v : tvec T 2) (i : Fin 2) :
    (m.mulVec v).data i = ∑ j : Fin 2, (m.subscript i).subscript j * v.data j := by
  rw [Fin.sum_univ_two]
  fin_cases i <;> rfl

/-- Element `i` of `M * v` for order 3, as a sum over the columns. -/
theorem tmat3_mulVec_apply [CommRing T] (m : tmat3 T) (v : tvec T 3) (i : Fin 3) :
    (m.mulVec v).data i = ∑ j : Fin 3, (m.subscript i).subscript j * v.data j := by
  rw [Fin.sum_univ_three]
  fin_cases i <;> rfl

/-- Element `i` of `M * v` for order 4, as a sum over the columns. -/
theorem tmat4_mulVec_apply [CommRing T] (m : tmat4 T) (v : tvec T 4) (i : Fin 4) :
    (m.mulVec v).data i = ∑ j : Fin 4, (m.subscript i).subscript j * v.data j := by
  rw [Fin.sum_univ_four]
  fin_cases i <;> rfl

/-- The entries of the default-constructed matrix of order 2. -/
theorem tmat2_new_apply [Zero T] [One T] (i j : Fin 2) :
    ((tmat2.new : tmat2 T).subscript i).subscript j = if i = j then 1 else 0 := by
  fin_cases i <;> fin_cases j <;> rfl

/-- The entries of the default-constructed matrix of order 3. -/
theorem tmat3_new_apply [Zero T] [One T] (i j : Fin 3) :
    ((tmat3.new : tmat3 T).subscript i).subscript j = if i = j then 1 else 0 := by
  fin_cases i <;> fin_cases j <;> rfl

/-- The entries of the default-constructed matrix of order 4. -/
theorem tmat4_new_apply [Zero T] [One T] (i j : Fin 4) :
    ((tmat4.new : tmat4 T).subscript i).subscript j = if i = j then 1 else 0 := by
  fin_cases i <;> fin_cases j <;> rfl

end MatrixLemmas

section AssignLemmas
variable {T : Type}

/-- Reading entry `[i][j]` after the assignment `m[r][c] = val`, order 2: the
written entry holds `val`, every other entry is as before. -/
theorem tmat2_assign_apply (m : tmat2 T) (r c i j : Fin 2) (val : T) :
    ((m.assign r c val).subscript i).subscript j
      = if i = r ∧ j = c then val else (m.subscript i).subscript j := by
  show Function.update m.m_ ⟨r.val + c.val * 2, _⟩ val ⟨i.val + j.val * 2, _⟩
    = if i = r ∧ j = c then val else m.m_ ⟨i.val + j.val * 2, _⟩
  have hr := r.isLt
  have hi := i.isLt
  by_cases h : i = r ∧ j = c
  · obtain ⟨h1, h2⟩ := h
    subst h1
    subst h2
    simp only [Function.update_same, and_self, if_true]
  · have hne : (⟨i.val + j.val * 2, ArrayProxy.stride_lt (m.subscript i).inb j⟩ : Fin 4)
        ≠ ⟨r.val + c.val * 2, ArrayProxy.stride_lt (m.subscript r).inb c⟩ := by
      intro e
      have e2 : i.val + j.val * 2 = r.val + c.val * 2 := congrArg Fin.val e
      apply h
      constructor
      · apply Fin.ext
        omega
      · apply Fin.ext
        omega
    rw [Function.update_noteq hne, if_neg h]

/-- Reading entry `[i][j]` after the assignment `m[r][c] = val`, order 3: the
written entry holds `val`, every other entry is as before. -/
theorem tmat3_assign_apply (m : tmat3 T) (r c i j : Fin 3) (val : T) :
    ((m.assign r c val).subscript i).subscript j
      = if i = r ∧ j = c then val else (m.subscript i).subscript j := by
  show Function.update m.m_ ⟨r.val + c.val * 3, _⟩ val ⟨i.val + j.val * 3, _⟩
    = if i = r ∧ j = c then val else m.m_ ⟨i.val + j.val * 3, _⟩
  have hr := r.isLt
  have hi := i.isLt
  by_cases h : i = r ∧ j = c
  · obtain ⟨h1, h2⟩ := h
    subst h1
    subst h2
    simp only [Function.update_same, and_self, if_true]
  · have hne : (⟨i.val + j.val * 3, ArrayProxy.stride_lt (m.subscript i).inb j⟩ : Fin 9)
        ≠ ⟨r.val + c.val * 3, ArrayProxy.stride_lt (m.subscript r).inb c⟩ := by
      intro e
      have e2 : i.val + j.val * 3 = r.val + c.val * 3 := congrArg Fin.val e
      apply h
      constructor
      · apply Fin.ext
        omega
      · apply Fin.ext
        omega
    rw [Function.update_noteq hne, if_neg h]

/-- Reading entry `[i][j]` after the assignment `m[r][c] = val`, order 4: the
written entry holds `val`, every other entry is as before. -/
theorem tmat4_assign_apply (m : tmat4 T) (r c i j : Fin 4) (val : T) :
    ((m.assign r c val).subscript i).subscript j
      = if i = r ∧ j = c then val else (m.subscript i).subscript j := by
  show Function.update m.m_ ⟨r.val + c.val * 4, _⟩ val ⟨i.val + j.val * 4, _⟩
    = if i = r ∧ j = c then val else m.m_ ⟨i.val + j.val * 4, _⟩
  have hr := r.isLt
  have hi := i.isLt
  by_cases h : i = r ∧ j = c
  · obtain ⟨h1, h2⟩ := h
    subst h1
    subst h2
    simp only [Function.update_same, and_self, if_true]
  · have hne : (⟨i.val + j.val * 4, ArrayProxy.stride_lt (m.subscript i).inb j⟩ : Fin 16)
        ≠ ⟨r.val + c.val * 4, ArrayProxy.stride_lt (m.subscript r).inb c⟩ := by
      intro e
      have e2 : i.val + j.val * 4 = r.val + c.val * 4 := congrArg Fin.val e
      apply h
      constructor
      · apply Fin.ext
        omega
      · apply Fin.ext
        omega
    rw [Function.update_noteq hne, if_neg h]

end AssignLemmas

section LayoutLemmas

/-- The values of `std::bit_ceil` at the three vector lengths. -/
theorem bit_ceil_values : bit_ceil 2 = 2 ∧ bit_ceil 3 = 4 ∧ bit_ceil 4 = 4 := by
  decide

/-- Rounding `n` up to a multiple of `a` when `n` is already a multiple. -/
theorem round_up_multiple (k a : Nat) (ha : 0 < a) : (k * a + a - 1) / a * a = k * a := by
  have h : (k * a + a - 1) / a = k := by
    apply Nat.div_eq_of_lt_le
    · omega
    · have e : (k + 1) * a = k * a + a := Nat.succ_mul k a
      omega
  rw [h]

/-- Rounding `3 * s` up to a multiple of `4 * s`. -/
theorem round_up_three_to_four (s : Nat) : (3 * s + 4 * s - 1) / (4 * s) * (4 * s) = 4 * s := by
  rcases Nat.eq_zero_or_pos s with h | h
  · subst h
    rfl
  · have e : (3 * s + 4 * s - 1) / (4 * s) = 1 := by
      apply Nat.div_eq_of_lt_le
      · omega
      · omega
    rw [e, Nat.one_mul]

/-- The object width when the alignment equals the size of the base array. -/
theorem round_up_self (n : Nat) : (n + n - 1) / n * n = n := by
  rcases Nat.eq_zero_or_pos n with h | h
  · subst h
    rfl
  · have e := round_up_multiple 1 n h
    rw [Nat.one_mul] at e
    exact e

end LayoutLemmas

section SampleLemmas

/-- The library's `dot` of `(0.5, 0.5, 0.5)` with `(1, 1, 1)`. -/
theorem dot_sampleHalves_sampleOnes : tvec.dot sampleHalves sampleOnes = 0 := by
  have h : tvec.dot sampleHalves sampleOnes
      = IntConv.ofInt (IntConv.toInt (IntConv.ofInt (IntConv.toInt (IntConv.ofInt
          (IntConv.toInt (IntConv.ofInt (0 : Int) + (1 / 2 : Rat) * 1)) + (1 / 2 : Rat) * 1))
            + (1 / 2 : Rat) * 1)) := rfl
  rw [h, toInt_zero_add_half, toInt_zero_add_half, toInt_zero_add_half]
  rfl

/-- The conversion of a fractional value to `int` truncates toward zero:
the result is no larger in magnitude and differs by less than one. -/
theorem toInt_truncates (q : Rat) :
    |((IntConv.toInt q : Int) : Rat)| ≤ |q| ∧ |q - ((IntConv.toInt q : Int) : Rat)| < 1 := by
  show |(((if 0 ≤ q then ⌊q⌋ else ⌈q⌉) : Int) : Rat)| ≤ |q|
    ∧ |q - (((if 0 ≤ q then ⌊q⌋ else ⌈q⌉) : Int) : Rat)| < 1
  by_cases hq : 0 ≤ q
  · rw [if_pos hq]
    have h1 : ((⌊q⌋ : Int) : Rat) ≤ q := Int.floor_le q
    have h2 : q < ((⌊q⌋ : Int) : Rat) + 1 := Int.lt_floor_add_one q
    have h3 : (0 : Rat) ≤ ((⌊q⌋ : Int) : Rat) := by
      exact_mod_cast Int.floor_nonneg.mpr hq
    constructor
    · rw [abs_of_nonneg h3, abs_of_nonneg hq]
      exact h1
    · rw [abs_lt]
      constructor <;> linarith
  · rw [if_neg hq]
    have hq2 : q < 0 := not_le.mp hq
    have h1 : q ≤ ((⌈q⌉ : Int) : Rat) := Int.le_ceil q
    have h2 : ((⌈q⌉ : Int) : Rat) < q + 1 := Int.ceil_lt_add_one q
    have h3 : ((⌈q⌉ : Int) : Rat) ≤ 0 := by
      exact_mod_cast Int.ceil_le.mpr (by exact_mod_cast hq2.le)
    constructor
    · rw [abs_of_nonpos h3, abs_of_neg hq2]
      linarith
    · rw [abs_lt]
      constructor <;> linarith

end SampleLemmas

section ProductLemmas
variable {T : Type}

/-- Entry `[i][j]` of `A * B` for order 2, as a sum over the inner index. -/
theorem tmat2_mul_apply [CommRing T] (A B : tmat2 T) (i j : Fin 2) :
    ((A.mul B).subscript i).subscript j
      = ∑ k : Fin 2, (A.subscript i).subscript k * (B.subscript k).subscript j := by
  rw [Fin.sum_univ_two]
  fin_cases i <;> fin_cases j <;> rfl

/-- Entry `[i][j]` after `transpose()` for order 2. -/
theorem tmat2_transpose_apply (m : tmat2 T) (i j : Fin 2) :
    (m.transpose.subscript i).subscript j = (m.subscript j).subscript i := by
  fin_cases i <;> fin_cases j <;> rfl

/-- Entry `[i][j]` of `A * B` for order 3, as a sum over the inner index. -/
theorem tmat3_mul_apply [CommRing T] (A B : tmat3 T) (i j : Fin 3) :
    ((A.mul B).subscript i).subscript j
      = ∑ k : Fin 3, (A.subscript i).subscript k * (B.subscript k).subscript j := by
  rw [Fin.sum_univ_three]
  fin_cases i <;> fin_cases j <;> rfl

/-- Entry `[i][j]` after `transpose()` for order 3. -/
theorem tmat3_transpose_apply (m : tmat3 T) (i j : Fin 3) :
    (m.transpose.subscript i).subscript j = (m.subscript j).subscript i := by
  fin_cases i <;> fin_cases j <;> rfl

/-- Entry `[i][j]` of `A * B` for order 4, as a sum over the inner index. -/
theorem tmat4_mul_apply [CommRing T] (A B : tmat4 T) (i j : Fin 4) :
    ((A.mul B).subscript i).subscript j
      = ∑ k : Fin 4, (A.subscript i).subscript k * (B.subscript k).subscript j := by
  rw [Fin.sum_univ_four]
  fin_cases i <;> fin_cases j <;> rfl

/-- Entry `[i][j]` after `transpose()` for order 4. -/
theorem tmat4_transpose_apply (m : tmat4 T) (i j : Fin 4) :
    (m.transpose.subscript i).subscript j = (m.subscript j).subscript i := by
  fin_cases i <;> fin_cases j <;> rfl

end ProductLemmas

section AccumulateLemmas
variable {T : Type}

/-- The `std::accumulate` loop over `count` elements from offset `first` is
the left fold of the conversion step over that stretch of the array. -/
theorem accumulate_eq_foldl [IntConv T] [Add T] {N : Nat} (a : Fin N → T) (count : Nat) :
    ∀ (first : Nat) (init : Int), first + count ≤ N →
      accumulate a count first init
        = (((List.ofFn a).drop first).take count).foldl
            (fun acc p => IntConv.toInt (IntConv.ofInt acc + p)) init := by
  induction count with
  | zero =>
    intro first init _
    simp [accumulate]
  | succ count ih =>
    intro first init h
    have hf : first < N := by omega
    have hlen : first < (List.ofFn a).length := by
      rw [List.length_ofFn]
      exact hf
    unfold accumulate
    rw [dif_pos hf, ih (first + 1) _ (by omega)]
    rw [List.drop_eq_getElem_cons hlen, List.take_succ_cons, List.foldl_cons]
    simp only [List.getElem_ofFn]

/-- The loop over the whole array, from the `int` literal `0`. -/
theorem accumulate_all [IntConv T] [Add T] {N : Nat} (a : Fin N → T) :
    accumulate a N 0 0 = truncatedSum (List.ofFn a) := by
  rw [accumulate_eq_foldl a N 0 0 (by omega)]
  unfold truncatedSum
  rw [List.drop_zero, List.take_of_length_le (by rw [List.length_ofFn])]

/-- The library's `dot` is the cast of the truncated running sum of the
products over the common length. -/
theorem dot_eq_truncatedSum [IntConv T] [Add T] [Mul T] {N1 N2 : Nat}
    (v1 : tvec T N1) (v2 : tvec T N2) :
    tvec.dot v1 v2 = IntConv.ofInt (truncatedSum (commonProducts v1 v2)) := by
  unfold tvec.dot
  simp only []
  rw [accumulate_all]
  congr 2
  unfold commonProducts
  congr 1
  funext i
  have hi : (⟨i.val, Nat.lt_of_lt_of_le i.isLt (Nat.min_le_left N1 N2)⟩ : Fin N1).val
      < min N1 N2 := i.isLt
  show transform (fun a b => a * b) v2.data (min N1 N2) 0 v1.data ⟨i.val, _⟩ = _
  rw [transform_from_start, dif_pos hi]

/-- The running sum of no products is the initial `0`. -/
theorem truncatedSum_nil [IntConv T] [Add T] : truncatedSum ([] : List T) = 0 := by
  rfl

/-- One more product: it is added to the accumulator reached so far and the
sum is converted to `int`. -/
theorem truncatedSum_append [IntConv T] [Add T] (ps : List T) (p : T) :
    truncatedSum (ps ++ [p]) = IntConv.toInt (IntConv.ofInt (truncatedSum ps) + p) := by
  unfold truncatedSum
  rw [List.foldl_append]
  rfl

end AccumulateLemmas

section FloatLemmas

/-- The product of two finite values. -/
theorem FloatVal.finite_mul (a b : Rat) :
    FloatVal.finite a * FloatVal.finite b = FloatVal.finite (a * b) := by
  rfl

/-- The sum of two finite values. -/
theorem FloatVal.finite_add (a b : Rat) :
    FloatVal.finite a + FloatVal.finite b = FloatVal.finite (a + b) := by
  rfl

/-- The zero of the floating-point type. -/
theorem FloatVal.zero_eq : (0 : FloatVal) = FloatVal.finite 0 := by
  rfl

/-- The one of the floating-point type. -/
theorem FloatVal.one_eq : (1 : FloatVal) = FloatVal.finite 1 := by
  rfl

end FloatLemmas

section AliasingLemmas

/-- The compound scalar operators with the argument bound to an element of
the matrix itself: `M /= M[0][0]` on `{2,4,6,8}` divides `m_[0]` by `2` and
the other elements by the new `m_[0] = 1`, and `M *= M[0][0]` multiplies
`m_[0]` by `2` and the other elements by the new `m_[0] = 4`. -/
theorem compound_scalar_aliasing_sample :
    (sampleMat2468.divAssignScalar (ScalarRef.element 0)).m_ 0 = 1
    ∧ (sampleMat2468.divAssignScalar (ScalarRef.element 0)).m_ 1 = 4
    ∧ (sampleMat2468.divAssignScalar (ScalarRef.element 0)).m_ 2 = 6
    ∧ (sampleMat2468.divAssignScalar (ScalarRef.element 0)).m_ 3 = 8
    ∧ (sampleMat2468.mulAssignScalar (ScalarRef.element 0)).m_ 0 = 4
    ∧ (sampleMat2468.mulAssignScalar (ScalarRef.element 0)).m_ 1 = 16
    ∧ (sampleMat2468.mulAssignScalar (ScalarRef.element 0)).m_ 2 = 24
    ∧ (sampleMat2468.mulAssignScalar (ScalarRef.element 0)).m_ 3 = 32
    ∧ (sampleMat2468.divScalar 2).m_ 1 = 2
    ∧ (sampleMat2468.mulScalar 2).m_ 1 = 8 := by
  decide

end AliasingLemmas

section RangeLemmas

/-- A value in range converts to an `int` between `INT_MIN` and `INT_MAX`. -/
theorem toInt_in_range (q : Rat) (h : inIntRange q) :
    -2147483648 ≤ (IntConv.toInt q : Int) ∧ (IntConv.toInt q : Int) ≤ 2147483647 := by
  obtain ⟨hlo, hhi⟩ := h
  show -2147483648 ≤ (if 0 ≤ q then ⌊q⌋ else ⌈q⌉) ∧ (if 0 ≤ q then ⌊q⌋ else ⌈q⌉) ≤ 2147483647
  by_cases hq : 0 ≤ q
  · rw [if_pos hq]
    have h1 : (0 : Int) ≤ ⌊q⌋ := Int.floor_nonneg.mpr hq
    have h2 : ⌊q⌋ < 2147483648 := Int.floor_lt.mpr (by exact_mod_cast hhi)
    omega
  · rw [if_neg hq]
    have hq2 : q < 0 := not_le.mp hq
    have h1 : ⌈q⌉ ≤ 0 := Int.ceil_le.mpr (by exact_mod_cast hq2.le)
    have h2 : -2147483649 < ⌈q⌉ := Int.lt_ceil.mpr (by exact_mod_cast hlo)
    omega

/-- When every conversion is defined, the running sum ends within the range
of `int`. -/
theorem foldl_in_range (ps : List Rat) :
    ∀ acc : Int, sumsInRange ps acc → -2147483648 ≤ acc → acc ≤ 2147483647 →
      -2147483648 ≤ ps.foldl (fun a p => IntConv.toInt (IntConv.ofInt a + p)) acc
      ∧ ps.foldl (fun a p => IntConv.toInt (IntConv.ofInt a + p)) acc ≤ 2147483647 := by
  induction ps with
  | nil =>
    intro acc _ hlo hhi
    exact ⟨hlo, hhi⟩
  | cons p ps ih =>
    intro acc h _ _
    obtain ⟨hp, hrest⟩ := h
    have hr := toInt_in_range _ hp
    rw [List.foldl_cons]
    exact ih _ hrest hr.1 hr.2

/-- Every conversion in `dot((0.5,0.5,0.5), (1,1,1))` is defined. -/
theorem sumsInRange_sample : sumsInRange (commonProducts sampleHalves sampleOnes) 0 := by
  have e : commonProducts sampleHalves sampleOnes
      = [(1 / 2 : Rat) * 1, 1 / 2 * 1, 1 / 2 * 1] := rfl
  rw [e]
  have hr : inIntRange (IntConv.ofInt (0 : Int) + (1 / 2 : Rat) * 1) := by
    simp only [IntConv.ofInt, inIntRange]
    norm_num
  simp only [sumsInRange, toInt_zero_add_half]
  exact ⟨hr, hr, hr, trivial⟩

end RangeLemmas

section Claims

/-- C1: for each order K in {2,3,4}, the product `A * B` and the in-place
`A *= B` are the standard matrix product under logical indexing:
entry `[i][j]` is the sum over `k < K` of `A[i][k] * B[k][j]`. -/
theorem matrix_product_is_standard {T : Type} [CommRing T] :
    (∀ (A B : tmat2 T) (i j : Fin 2),
      ((A.mul B).subscript i).subscript j
          = ∑ k : Fin 2, (A.subscript i).subscript k * (B.subscript k).subscript j
      ∧ ((A.mulAssign B).subscript i).subscript j
          = ∑ k : Fin 2, (A.subscript i).subscript k * (B.subscript k).subscript j)
    ∧ (∀ (A B : tmat3 T) (i j : Fin 3),
      ((A.mul B).subscript i).subscript j
          = ∑ k : Fin 3, (A.subscript i).subscript k * (B.subscript k).subscript j
      ∧ ((A.mulAssign B).subscript i).subscript j
          = ∑ k : Fin 3, (A.subscript i).subscript k * (B.subscript k).subscript j)
    ∧ (∀ (A B : tmat4 T) (i j : Fin 4),
      ((A.mul B).subscript i).subscript j
          = ∑ k : Fin 4, (A.subscript i).subscript k * (B.subscript k).subscript j
      ∧ ((A.mulAssign B).subscript i).subscript j
          = ∑ k : Fin 4, (A.subscript i).subscript k * (B.subscript k).subscript j) := by
  refine ⟨?_, ?_, ?_⟩
  · intro A B i j
    rw [Fin.sum_univ_two]
    constructor <;> fin_cases i <;> fin_cases j <;> rfl
  · intro A B i j
    rw [Fin.sum_univ_three]
    constructor <;> fin_cases i <;> fin_cases j <;> rfl
  · intro A B i j
    rw [Fin.sum_univ_four]
    constructor <;> fin_cases i <;> fin_cases j <;> rfl

/-- C2: for each order K in {2,3,4}, the logical accessor `m[r][c]` is the
element at flat index `c*K + r` of the raw buffer given by the conversion to
`const T*`. -/
theorem subscript_is_column_major {T : Type} :
    (∀ (m : tmat2 T) (r c : Fin 2),
      (m.subscript r).subscript c = m.toPtr ⟨c.val * 2 + r.val, flat_lt_two r c⟩)
    ∧ (∀ (m : tmat3 T) (r c : Fin 3),
      (m.subscript r).subscript c = m.toPtr ⟨c.val * 3 + r.val, flat_lt_three r c⟩)
    ∧ (∀ (m : tmat4 T) (r c : Fin 4),
      (m.subscript r).subscript c = m.toPtr ⟨c.val * 4 + r.val, flat_lt_four r c⟩) := by
  refine ⟨?_, ?_, ?_⟩
  · intro m r c
    show m.m_ _ = m.m_ _
    exact congrArg m.m_ (Fin.ext (Nat.add_comm _ _))
  · intro m r c
    show m.m_ _ = m.m_ _
    exact congrArg m.m_ (Fin.ext (Nat.add_comm _ _))
  · intro m r c
    show m.m_ _ = m.m_ _
    exact congrArg m.m_ (Fin.ext (Nat.add_comm _ _))

/-- C3: the binary `tmat2::operator-` returns the elementwise SUM of its
operands (its body applies `+=`), so on the 2x2 identity buffer `A = B =
{1,0,0,1}` the entry `(A - B)[0][0]` is `2`, not `A[0][0] - B[0][0] = 0`.
The orders 3 and 4, and the compound `-=` of order 2, subtract elementwise. -/
theorem tmat2_binary_minus_adds :
    (∀ (A B : tmat2 Int) (i j : Fin 2),
      ((A.sub B).subscript i).subscript j
        = (A.subscript i).subscript j + (B.subscript i).subscript j)
    ∧ ((sampleMat2.sub sampleMat2).subscript 0).subscript 0 = 2
    ∧ (sampleMat2.subscript 0).subscript 0 - (sampleMat2.subscript 0).subscript 0 = 0
    ∧ (∀ (A B : tmat2 Int) (i j : Fin 2),
      ((A.subAssign B).subscript i).subscript j
        = (A.subscript i).subscript j - (B.subscript i).subscript j)
    ∧ (∀ (A B : tmat3 Int) (i j : Fin 3),
      ((A.sub B).subscript i).subscript j
        = (A.subscript i).subscript j - (B.subscript i).subscript j)
    ∧ (∀ (A B : tmat4 Int) (i j : Fin 4),
      ((A.sub B).subscript i).subscript j
        = (A.subscript i).subscript j - (B.subscript i).subscript j) := by
  refine ⟨?_, by decide, by decide, ?_, ?_, ?_⟩
  · intro A B i j
    fin_cases i <;> fin_cases j <;> rfl
  · intro A B i j
    fin_cases i <;> fin_cases j <;> rfl
  · intro A B i j
    fin_cases i <;> fin_cases j <;> rfl
  · intro A B i j
    fin_cases i <;> fin_cases j <;> rfl

/-- C4: the single-scalar constructor `tvec(t)` fills the vector with the
constant `1` whatever `t` is; `tvec<int,3>(2)` is `(1, 1, 1)`, so its
elements are not `2`. -/
theorem scalar_constructor_fills_one :
    (∀ (N : Nat) (t : Int) (i : Fin N), (tvec.ofScalar t : tvec Int N).data i = 1)
    ∧ (tvec.ofScalar (2 : Int) : tvec Int 3).data 0 ≠ 2 := by
  refine ⟨?_, by decide⟩
  intro N t i
  rfl

/-- C5: every scalar operator of `tvec` combines each element with `1`
instead of the scalar `s`: `(v * s)[i] = v[i] * 1`, `(v + s)[i] = v[i] + 1`,
`(v - s)[i] = v[i] - 1`, `(v / s)[i] = v[i] / 1`, for the binary, compound
and left forms alike.  On `v = (1, 2, 3)` and `s = 2` the product `v * s`
has first element `1`, not `v[0] * 2 = 2`. -/
theorem scalar_operators_use_one :
    (∀ (N : Nat) (v : tvec Int N) (s : Int) (i : Fin N),
      (v.mulScalar s).data i = v.data i * 1
      ∧ (v.mulAssignScalar s).data i = v.data i * 1
      ∧ (scalarMulVec s v).data i = v.data i * 1
      ∧ (v.addScalar s).data i = v.data i + 1
      ∧ (v.addAssignScalar s).data i = v.data i + 1
      ∧ (v.subScalar s).data i = v.data i - 1
      ∧ (v.subAssignScalar s).data i = v.data i - 1
      ∧ (v.divScalar s).data i = v.data i / 1
      ∧ (v.divAssignScalar s).data i = v.data i / 1)
    ∧ (sampleVec123.mulScalar 2).data 0 = 1
    ∧ sampleVec123.data 0 * 2 = 2
    ∧ (sampleVec123.addScalar 2).data 0 = 2
    ∧ sampleVec123.data 0 + 2 = 3 := by
  refine ⟨?_, by decide, by decide, by decide, by decide⟩
  intro N v s i
  have hi : i.val < min N N := by
    rw [Nat.min_self]
    exact i.isLt
  refine ⟨?_, ?_, ?_, ?_, ?_, ?_, ?_, ?_, ?_⟩ <;>
    simp only [scalarMulVec, tvec.mulScalar, tvec.mulAssignScalar, tvec.mulAssign,
      tvec.addScalar, tvec.addAssignScalar, tvec.addAssign,
      tvec.subScalar, tvec.subAssignScalar, tvec.subAssign,
      tvec.divScalar, tvec.divAssignScalar, tvec.divAssign,
      transform_from_start, dif_pos hi, tvec.ofScalar, tvec.fill]

/-- C6: `dot` adds the products into an `int` accumulator, so on fractional
values it is not the sum of the products: `dot((0.5,0.5,0.5), (1,1,1))`
returns `0`, while the sum over `i < 3` of `v1[i] * v2[i]` is `3/2`. -/
theorem dot_drops_fractions :
    tvec.dot sampleHalves sampleOnes = 0
    ∧ ∑ i : Fin 3, sampleHalves.data i * sampleOnes.data i = 3 / 2 := by
  constructor
  · have h : tvec.dot sampleHalves sampleOnes
        = IntConv.ofInt (IntConv.toInt (IntConv.ofInt (IntConv.toInt (IntConv.ofInt
            (IntConv.toInt (IntConv.ofInt (0 : Int) + (1 / 2 : Rat) * 1)) + (1 / 2 : Rat) * 1))
              + (1 / 2 : Rat) * 1)) := rfl
    rw [h, toInt_zero_add_half, toInt_zero_add_half, toInt_zero_add_half]
    rfl
  · rw [Fin.sum_univ_three]
    simp only [sampleHalves, sampleOnes]
    norm_num

/-- C7: for length-3 vectors, `cross(u, v)` computed as
`(u * v.yzx() - u.yzx() * v).yzx()` equals the textbook cross product
`(u.y*v.z - u.z*v.y, u.z*v.x - u.x*v.z, u.x*v.y - u.y*v.x)` in each of the
three components. -/
theorem cross_eq_textbook {T : Type} [Mul T] [Sub T] (u v : tvec T 3) (i : Fin 3) :
    (tvec.cross u v).data i = (crossTextbook u v).data i := by
  fin_cases i <;> rfl

/-- C8: `normalize()` divides by the vector `tvec(l)`, which holds ones, so
it changes no element of any vector, whatever `sqrt` computes.  The vector
`(3, 4, 0)` has `dot` 25 with itself (length 5, neither 0 nor 1); after
`normalize()` it is still `(3, 4, 0)` and its length is still `sqrt(25)`,
not 1. -/
theorem normalize_keeps_length (sqrt : Rat → Rat) (cast : Rat → Rat) :
    (∀ (N : Nat) (v : tvec Rat N), tvec.normalize sqrt cast v = v)
    ∧ tvec.dot sampleVec340 sampleVec340 = 25
    ∧ tvec.normalize sqrt cast sampleVec340 = sampleVec340
    ∧ tvec.length sqrt (tvec.normalize sqrt cast sampleVec340) = sqrt 25 := by
  have hall : ∀ (N : Nat) (v : tvec Rat N), tvec.normalize sqrt cast v = v := by
    intro N v
    exact tvec.eq_of_data _ _ (normalize_data_of_div_one div_one sqrt cast v)
  refine ⟨hall, dot_sampleVec340, hall 3 sampleVec340, ?_⟩
  rw [hall 3 sampleVec340]
  unfold tvec.length
  rw [dot_sampleVec340]

/-- C9: for `lhs` of length `N` and `rhs` of length `M`, each of `+ - * /`
(binary and compound) returns a length-`N` vector whose element `i` is
`lhs[i] op rhs[i]` when `i < min N M` and `lhs[i]` otherwise. -/
theorem elementwise_over_common_part {T : Type} [Add T] [Sub T] [Mul T] [Div T]
    {N M : Nat} (lhs : tvec T N) (rhs : tvec T M) (i : Fin N) :
    ((lhs.add rhs).data i = if h : i.val < min N M
        then lhs.data i + rhs.data ⟨i.val, (Nat.lt_min.mp h).2⟩ else lhs.data i)
    ∧ ((lhs.addAssign rhs).data i = if h : i.val < min N M
        then lhs.data i + rhs.data ⟨i.val, (Nat.lt_min.mp h).2⟩ else lhs.data i)
    ∧ ((lhs.sub rhs).data i = if h : i.val < min N M
        then lhs.data i - rhs.data ⟨i.val, (Nat.lt_min.mp h).2⟩ else lhs.data i)
    ∧ ((lhs.subAssign rhs).data i = if h : i.val < min N M
        then lhs.data i - rhs.data ⟨i.val, (Nat.lt_min.mp h).2⟩ else lhs.data i)
    ∧ ((lhs.mul rhs).data i = if h : i.val < min N M
        then lhs.data i * rhs.data ⟨i.val, (Nat.lt_min.mp h).2⟩ else lhs.data i)
    ∧ ((lhs.mulAssign rhs).data i = if h : i.val < min N M
        then lhs.data i * rhs.data ⟨i.val, (Nat.lt_min.mp h).2⟩ else lhs.data i)
    ∧ ((lhs.div rhs).data i = if h : i.val < min N M
        then lhs.data i / rhs.data ⟨i.val, (Nat.lt_min.mp h).2⟩ else lhs.data i)
    ∧ ((lhs.divAssign rhs).data i = if h : i.val < min N M
        then lhs.data i / rhs.data ⟨i.val, (Nat.lt_min.mp h).2⟩ else lhs.data i) := by
  refine ⟨?_, ?_, ?_, ?_, ?_, ?_, ?_, ?_⟩ <;>
    simp only [tvec.add, tvec.addAssign, tvec.sub, tvec.subAssign, tvec.mul, tvec.mulAssign,
      tvec.div, tvec.divAssign, transform_from_start]

/-- C10: for each order K in {2,3,4}, `M * v` treats `v` as a column vector:
element `i` of the result is the sum over `j < K` of `M[i][j] * v[j]`. -/
theorem matrix_times_column_vector {T : Type} [CommRing T] :
    (∀ (m : tmat2 T) (v : tvec T 2) (i : Fin 2),
      (m.mulVec v).data i = ∑ j : Fin 2, (m.subscript i).subscript j * v.data j)
    ∧ (∀ (m : tmat3 T) (v : tvec T 3) (i : Fin 3),
      (m.mulVec v).data i = ∑ j : Fin 3, (m.subscript i).subscript j * v.data j)
    ∧ (∀ (m : tmat4 T) (v : tvec T 4) (i : Fin 4),
      (m.mulVec v).data i = ∑ j : Fin 4, (m.subscript i).subscript j * v.data j) := by
  refine ⟨?_, ?_, ?_⟩
  · intro m v i
    rw [Fin.sum_univ_two]
    fin_cases i <;> rfl
  · intro m v i
    rw [Fin.sum_univ_three]
    fin_cases i <;> rfl
  · intro m v i
    rw [Fin.sum_univ_four]
    fin_cases i <;> rfl

/-- C11: for each order K in {2,3,4}, `v * M` treats `v` as a row vector:
element `j` of the result is the sum over `i < K` of `v[i] * M[i][j]`. -/
theorem row_vector_times_matrix {T : Type} [CommRing T] :
    (∀ (v : tvec T 2) (m : tmat2 T) (j : Fin 2),
      (tmat2.vecMul v m).data j = ∑ i : Fin 2, v.data i * (m.subscript i).subscript j)
    ∧ (∀ (v : tvec T 3) (m : tmat3 T) (j : Fin 3),
      (tmat3.vecMul v m).data j = ∑ i : Fin 3, v.data i * (m.subscript i).subscript j)
    ∧ (∀ (v : tvec T 4) (m : tmat4 T) (j : Fin 4),
      (tmat4.vecMul v m).data j = ∑ i : Fin 4, v.data i * (m.subscript i).subscript j) := by
  refine ⟨?_, ?_, ?_⟩
  · intro v m j
    rw [Fin.sum_univ_two]
    fin_cases j <;> rfl
  · intro v m j
    rw [Fin.sum_univ_three]
    fin_cases j <;> rfl
  · intro v m j
    rw [Fin.sum_univ_four]
    fin_cases j <;> rfl

/-- C12: for each order K in {2,3,4}, after `M.transpose()` the entry
`[i][j]` is the entry `[j][i]` of the matrix before the call. -/
theorem transpose_swaps_indices {T : Type} :
    (∀ (m : tmat2 T) (i j : Fin 2),
      (m.transpose.subscript i).subscript j = (m.subscript j).subscript i)
    ∧ (∀ (m : tmat3 T) (i j : Fin 3),
      (m.transpose.subscript i).subscript j = (m.subscript j).subscript i)
    ∧ (∀ (m : tmat4 T) (i j : Fin 4),
      (m.transpose.subscript i).subscript j = (m.subscript j).subscript i) := by
  refine ⟨?_, ?_, ?_⟩
  · intro m i j
    fin_cases i <;> fin_cases j <;> rfl
  · intro m i j
    fin_cases i <;> fin_cases j <;> rfl
  · intro m i j
    fin_cases i <;> fin_cases j <;> rfl

/-- C13: for each order K in {2,3,4}, transposing twice restores the matrix:
every entry of `M.transpose().transpose()` is the entry of `M`, under the
logical indexing and in the raw buffer. -/
theorem transpose_twice_restores {T : Type} :
    (∀ (m : tmat2 T),
      (∀ i j : Fin 2, (m.transpose.transpose.subscript i).subscript j
          = (m.subscript i).subscript j)
      ∧ ∀ k : Fin 4, m.transpose.transpose.toPtr k = m.toPtr k)
    ∧ (∀ (m : tmat3 T),
      (∀ i j : Fin 3, (m.transpose.transpose.subscript i).subscript j
          = (m.subscript i).subscript j)
      ∧ ∀ k : Fin 9, m.transpose.transpose.toPtr k = m.toPtr k)
    ∧ (∀ (m : tmat4 T),
      (∀ i j : Fin 4, (m.transpose.transpose.subscript i).subscript j
          = (m.subscript i).subscript j)
      ∧ ∀ k : Fin 16, m.transpose.transpose.toPtr k = m.toPtr k) := by
  refine ⟨?_, ?_, ?_⟩
  · intro m
    constructor
    · intro i j
      fin_cases i <;> fin_cases j <;> rfl
    · intro k
      fin_cases k <;> rfl
  · intro m
    constructor
    · intro i j
      fin_cases i <;> fin_cases j <;> rfl
    · intro k
      fin_cases k <;> rfl
  · intro m
    constructor
    · intro i j
      fin_cases i <;> fin_cases j <;> rfl
    · intro k
      fin_cases k <;> rfl

/-- C14: for each order K in {2,3,4}, the default-constructed matrix is the
identity under logical indexing: entry `[i][j]` is `1` when `i = j` and `0`
otherwise. -/
theorem default_matrix_is_identity {T : Type} [Zero T] [One T] :
    (∀ i j : Fin 2,
      ((tmat2.new : tmat2 T).subscript i).subscript j = if i = j then 1 else 0)
    ∧ (∀ i j : Fin 3,
      ((tmat3.new : tmat3 T).subscript i).subscript j = if i = j then 1 else 0)
    ∧ (∀ i j : Fin 4,
      ((tmat4.new : tmat4 T).subscript i).subscript j = if i = j then 1 else 0) := by
  refine ⟨?_, ?_, ?_⟩
  · intro i j
    fin_cases i <;> fin_cases j <;> rfl
  · intro i j
    fin_cases i <;> fin_cases j <;> rfl
  · intro i j
    fin_cases i <;> fin_cases j <;> rfl

/-- C15: for each order K in {2,3,4}, the default-constructed
(identity) matrix `I` satisfies `I * v = v` in every element for every
length-K vector `v` over an exact-arithmetic element type, and, for a
floating-point element type, for every `v` whose elements are all finite. -/
theorem identity_times_vector {T : Type} [CommRing T] :
    (∀ (v : tvec T 2) (i : Fin 2), ((tmat2.new : tmat2 T).mulVec v).data i = v.data i)
    ∧ (∀ (v : tvec T 3) (i : Fin 3), ((tmat3.new : tmat3 T).mulVec v).data i = v.data i)
    ∧ (∀ (v : tvec T 4) (i : Fin 4), ((tmat4.new : tmat4 T).mulVec v).data i = v.data i)
    ∧ (∀ (q : Fin 2 → Rat) (i : Fin 2),
      ((tmat2.new : tmat2 FloatVal).mulVec ⟨fun k => FloatVal.finite (q k)⟩).data i
        = FloatVal.finite (q i))
    ∧ (∀ (q : Fin 3 → Rat) (i : Fin 3),
      ((tmat3.new : tmat3 FloatVal).mulVec ⟨fun k => FloatVal.finite (q k)⟩).data i
        = FloatVal.finite (q i))
    ∧ (∀ (q : Fin 4 → Rat) (i : Fin 4),
      ((tmat4.new : tmat4 FloatVal).mulVec ⟨fun k => FloatVal.finite (q k)⟩).data i
        = FloatVal.finite (q i)) := by
  refine ⟨?_, ?_, ?_, ?_, ?_, ?_⟩
  · intro v i
    rw [tmat2_mulVec_apply]
    simp only [tmat2_new_apply, ite_mul, one_mul, zero_mul, Finset.sum_ite_eq,
      Finset.mem_univ, if_true]
  · intro v i
    rw [tmat3_mulVec_apply]
    simp only [tmat3_new_apply, ite_mul, one_mul, zero_mul, Finset.sum_ite_eq,
      Finset.mem_univ, if_true]
  · intro v i
    rw [tmat4_mulVec_apply]
    simp only [tmat4_new_apply, ite_mul, one_mul, zero_mul, Finset.sum_ite_eq,
      Finset.mem_univ, if_true]
  · intro q i
    fin_cases i
    · show (1 : FloatVal) * FloatVal.finite (q 0) + 0 * FloatVal.finite (q 1)
        = FloatVal.finite (q 0)
      simp [FloatVal.zero_eq, FloatVal.one_eq, FloatVal.finite_mul, FloatVal.finite_add]
    · show (0 : FloatVal) * FloatVal.finite (q 0) + 1 * FloatVal.finite (q 1)
        = FloatVal.finite (q 1)
      simp [FloatVal.zero_eq, FloatVal.one_eq, FloatVal.finite_mul, FloatVal.finite_add]
  · intro q i
    fin_cases i
    · show (1 : FloatVal) * FloatVal.finite (q 0) + 0 * FloatVal.finite (q 1) + 0 * FloatVal.finite (q 2)
        = FloatVal.finite (q 0)
      simp [FloatVal.zero_eq, FloatVal.one_eq, FloatVal.finite_mul, FloatVal.finite_add]
    · show (0 : FloatVal) * FloatVal.finite (q 0) + 1 * FloatVal.finite (q 1) + 0 * FloatVal.finite (q 2)
        = FloatVal.finite (q 1)
      simp [FloatVal.zero_eq, FloatVal.one_eq, FloatVal.finite_mul, FloatVal.finite_add]
    · show (0 : FloatVal) * FloatVal.finite (q 0) + 0 * FloatVal.finite (q 1) + 1 * FloatVal.finite (q 2)
        = FloatVal.finite (q 2)
      simp [FloatVal.zero_eq, FloatVal.one_eq, FloatVal.finite_mul, FloatVal.finite_add]
  · intro q i
    fin_cases i
    · show (1 : FloatVal) * FloatVal.finite (q 0) + 0 * FloatVal.finite (q 1) + 0 * FloatVal.finite (q 2) + 0 * FloatVal.finite (q 3)
        = FloatVal.finite (q 0)
      simp [FloatVal.zero_eq, FloatVal.one_eq, FloatVal.finite_mul, FloatVal.finite_add]
    · show (0 : FloatVal) * FloatVal.finite (q 0) + 1 * FloatVal.finite (q 1) + 0 * FloatVal.finite (q 2) + 0 * FloatVal.finite (q 3)
        = FloatVal.finite (q 1)
      simp [FloatVal.zero_eq, FloatVal.one_eq, FloatVal.finite_mul, FloatVal.finite_add]
    · show (0 : FloatVal) * FloatVal.finite (q 0) + 0 * FloatVal.finite (q 1) + 1 * FloatVal.finite (q 2) + 0 * FloatVal.finite (q 3)
        = FloatVal.finite (q 2)
      simp [FloatVal.zero_eq, FloatVal.one_eq, FloatVal.finite_mul, FloatVal.finite_add]
    · show (0 : FloatVal) * FloatVal.finite (q 0) + 0 * FloatVal.finite (q 1) + 0 * FloatVal.finite (q 2) + 1 * FloatVal.finite (q 3)
        = FloatVal.finite (q 3)
      simp [FloatVal.zero_eq, FloatVal.one_eq, FloatVal.finite_mul, FloatVal.finite_add]

/-- Counterexample for C15: on a floating-point element type
the identity matrix does not fix the vector `(inf, 1)`: the second element of
`mat2() * vec2(inf, 1)` is `0 * inf + 1 * 1`, which is NaN, not `1`. -/
theorem identity_fails_at_infinity :
    ((tmat2.new : tmat2 FloatVal).mulVec sampleInfOne).data 1 = FloatVal.nan
    ∧ sampleInfOne.data 1 = FloatVal.finite 1
    ∧ ¬ (∀ i : Fin 2,
        ((tmat2.new : tmat2 FloatVal).mulVec sampleInfOne).data i = sampleInfOne.data i) := by
  refine ⟨by decide, rfl, ?_⟩
  intro h
  have h1 := h 1
  revert h1
  decide

/-- C16: for each order K in {2,3,4}, `outer(a, b)` is the matrix whose
entry `[i][j]` is `a[i] * b[j]`; `outer((1,2), (3,4))` has logical rows
`(3, 4)` and `(6, 8)`. -/
theorem outer_entries {T : Type} [Zero T] [One T] [Mul T] :
    (∀ (a b : tvec T 2) (i j : Fin 2),
      ((tmat2.outer a b).subscript i).subscript j = a.data i * b.data j)
    ∧ (∀ (a b : tvec T 3) (i j : Fin 3),
      ((tmat3.outer a b).subscript i).subscript j = a.data i * b.data j)
    ∧ (∀ (a b : tvec T 4) (i j : Fin 4),
      ((tmat4.outer a b).subscript i).subscript j = a.data i * b.data j)
    ∧ ((tmat2.outer sampleVec12 sampleVec34).subscript 0).subscript 0 = 3
    ∧ ((tmat2.outer sampleVec12 sampleVec34).subscript 0).subscript 1 = 4
    ∧ ((tmat2.outer sampleVec12 sampleVec34).subscript 1).subscript 0 = 6
    ∧ ((tmat2.outer sampleVec12 sampleVec34).subscript 1).subscript 1 = 8 := by
  refine ⟨?_, ?_, ?_, by decide, by decide, by decide, by decide⟩
  · intro a b i j
    unfold tmat2.outer
    simp only [tmat2_assign_apply]
    fin_cases i <;> fin_cases j <;> rfl
  · intro a b i j
    unfold tmat3.outer
    simp only [tmat3_assign_apply]
    fin_cases i <;> fin_cases j <;> rfl
  · intro a b i j
    unfold tmat4.outer
    simp only [tmat4_assign_apply]
    fin_cases i <;> fin_cases j <;> rfl

/-- C17: for each order K in {2,3,4}, `A + B` and the in-place `A += B` are
elementwise: entry `[i][j]` is `A[i][j] + B[i][j]`. -/
theorem matrix_sum_elementwise {T : Type} [Add T] :
    (∀ (A B : tmat2 T) (i j : Fin 2),
      ((A.add B).subscript i).subscript j
          = (A.subscript i).subscript j + (B.subscript i).subscript j
      ∧ ((A.addAssign B).subscript i).subscript j
          = (A.subscript i).subscript j + (B.subscript i).subscript j)
    ∧ (∀ (A B : tmat3 T) (i j : Fin 3),
      ((A.add B).subscript i).subscript j
          = (A.subscript i).subscript j + (B.subscript i).subscript j
      ∧ ((A.addAssign B).subscript i).subscript j
          = (A.subscript i).subscript j + (B.subscript i).subscript j)
    ∧ (∀ (A B : tmat4 T) (i j : Fin 4),
      ((A.add B).subscript i).subscript j
          = (A.subscript i).subscript j + (B.subscript i).subscript j
      ∧ ((A.addAssign B).subscript i).subscript j
          = (A.subscript i).subscript j + (B.subscript i).subscript j) := by
  refine ⟨?_, ?_, ?_⟩
  · intro A B i j
    constructor <;> fin_cases i <;> fin_cases j <;> rfl
  · intro A B i j
    constructor <;> fin_cases i <;> fin_cases j <;> rfl
  · intro A B i j
    constructor <;> fin_cases i <;> fin_cases j <;> rfl

/-- C18: for each order K in {2,3,4}, scalar multiplication and division act
on every entry: `(M * s)[i][j] = M[i][j] * s`, `(s * M)[i][j] = M[i][j] * s`
and `(M / s)[i][j] = M[i][j] / s`, for every `s`.  The compound `M *= s` and
`M /= s` give the same entries when `s` is not an element of `M` itself. -/
theorem matrix_scalar_ops_elementwise {T : Type} [Mul T] [Div T] :
    (∀ (m : tmat2 T) (s : T) (i j : Fin 2),
      ((m.mulScalar s).subscript i).subscript j = (m.subscript i).subscript j * s
      ∧ ((tmat2.scalarMul s m).subscript i).subscript j = (m.subscript i).subscript j * s
      ∧ ((m.divScalar s).subscript i).subscript j = (m.subscript i).subscript j / s
      ∧ ((m.mulAssignScalar (ScalarRef.outside s)).subscript i).subscript j
          = (m.subscript i).subscript j * s
      ∧ ((m.divAssignScalar (ScalarRef.outside s)).subscript i).subscript j
          = (m.subscript i).subscript j / s)
    ∧ (∀ (m : tmat3 T) (s : T) (i j : Fin 3),
      ((m.mulScalar s).subscript i).subscript j = (m.subscript i).subscript j * s
      ∧ ((tmat3.scalarMul s m).subscript i).subscript j = (m.subscript i).subscript j * s
      ∧ ((m.divScalar s).subscript i).subscript j = (m.subscript i).subscript j / s
      ∧ ((m.mulAssignScalar (ScalarRef.outside s)).subscript i).subscript j
          = (m.subscript i).subscript j * s
      ∧ ((m.divAssignScalar (ScalarRef.outside s)).subscript i).subscript j
          = (m.subscript i).subscript j / s)
    ∧ (∀ (m : tmat4 T) (s : T) (i j : Fin 4),
      ((m.mulScalar s).subscript i).subscript j = (m.subscript i).subscript j * s
      ∧ ((tmat4.scalarMul s m).subscript i).subscript j = (m.subscript i).subscript j * s
      ∧ ((m.divScalar s).subscript i).subscript j = (m.subscript i).subscript j / s
      ∧ ((m.mulAssignScalar (ScalarRef.outside s)).subscript i).subscript j
          = (m.subscript i).subscript j * s
      ∧ ((m.divAssignScalar (ScalarRef.outside s)).subscript i).subscript j
          = (m.subscript i).subscript j / s) := by
  refine ⟨?_, ?_, ?_⟩
  · intro m s i j
    refine ⟨?_, ?_, ?_, ?_, ?_⟩ <;> fin_cases i <;> fin_cases j <;> rfl
  · intro m s i j
    refine ⟨?_, ?_, ?_, ?_, ?_⟩ <;> fin_cases i <;> fin_cases j <;> rfl
  · intro m s i j
    refine ⟨?_, ?_, ?_, ?_, ?_⟩ <;> fin_cases i <;> fin_cases j <;> rfl

/-- C19: over an exact-arithmetic element type, the cross product of
length-3 vectors is anticommutative: each component of `cross(u, v)` is the
negation of the same component of `cross(v, u)`. -/
theorem cross_anticommutative {T : Type} [CommRing T] (u v : tvec T 3) (i : Fin 3) :
    (tvec.cross u v).data i = -(tvec.cross v u).data i := by
  fin_cases i
  · show u.data 1 * v.data 2 - u.data 2 * v.data 1
      = -(v.data 1 * u.data 2 - v.data 2 * u.data 1)
    ring
  · show u.data 2 * v.data 0 - u.data 0 * v.data 2
      = -(v.data 2 * u.data 0 - v.data 0 * u.data 2)
    ring
  · show u.data 0 * v.data 1 - u.data 1 * v.data 0
      = -(v.data 0 * u.data 1 - v.data 1 * u.data 0)
    ring

/-- C20: on the element type `int` the library's `dot(u, cross(u, v))` is
`0` for all length-3 `u`, `v`; on fractional values the `int` accumulator of
`dot` breaks it: for `u = (0.5, 1, 1)` and `v = (1, 0, 1)` the cross product
is `(1, 0.5, -1)`, the three products are `0.5, 0.5, -1` (sum `0`), and `dot`
returns `-1`. -/
theorem dot_cross_orthogonality :
    (∀ u v : tvec Int 3, tvec.dot u (tvec.cross u v) = 0)
    ∧ (tvec.cross sampleCrossU sampleCrossV).data 0 = 1 * 1 - 1 * 0
    ∧ (tvec.cross sampleCrossU sampleCrossV).data 1 = 1 * 1 - 1 / 2 * 1
    ∧ (tvec.cross sampleCrossU sampleCrossV).data 2 = 1 / 2 * 0 - 1 * 1
    ∧ ∑ i : Fin 3, sampleCrossU.data i * (tvec.cross sampleCrossU sampleCrossV).data i = 0
    ∧ tvec.dot sampleCrossU (tvec.cross sampleCrossU sampleCrossV) = -1 := by
  refine ⟨?_, rfl, rfl, rfl, ?_, ?_⟩
  · intro u v
    rw [dot_int_three]
    show u.data 0 * (u.data 1 * v.data 2 - u.data 2 * v.data 1)
      + u.data 1 * (u.data 2 * v.data 0 - u.data 0 * v.data 2)
      + u.data 2 * (u.data 0 * v.data 1 - u.data 1 * v.data 0) = 0
    ring
  · rw [Fin.sum_univ_three]
    show (1 / 2 : Rat) * (1 * 1 - 1 * 0) + 1 * (1 * 1 - 1 / 2 * 1)
      + 1 * (1 / 2 * 0 - 1 * 1) = 0
    norm_num
  · have h : tvec.dot sampleCrossU (tvec.cross sampleCrossU sampleCrossV)
        = IntConv.ofInt (IntConv.toInt (IntConv.ofInt (IntConv.toInt (IntConv.ofInt
            (IntConv.toInt (IntConv.ofInt (0 : Int) + (1 / 2 : Rat) * (1 * 1 - 1 * 0)))
              + (1 : Rat) * (1 * 1 - 1 / 2 * 1))) + (1 : Rat) * (1 / 2 * 0 - 1 * 1))) := rfl
    rw [h, toInt_steps_cross_sample.1, toInt_steps_cross_sample.2.1,
      toInt_steps_cross_sample.2.2]
    rfl

/-- C21: a default-constructed vector of any length has every element equal
to the zero value of the element type. -/
theorem default_vector_is_zero {T : Type} [Zero T] (N : Nat) (i : Fin N) :
    (tvec.new : tvec T N).data i = 0 := by
  rfl

/-- C22: the variadic constructor sets element `i` to the `i`-th argument
for every `i` below the number of arguments, so `x()`, `y()`, `z()`, `w()`
return the first to fourth argument where present (lengths 2, 3, 4 with 2
to N arguments). -/
theorem variadic_constructor_positional {T : Type} [Zero T] {N : Nat} (args : List T)
    (i : Fin N) (h : i.val < args.length) :
    (tvec.ofArgs args : tvec T N).data i = args.get ⟨i.val, h⟩
    ∧ (∀ a0 a1 a2 a3 : T,
        (tvec.ofArgs [a0, a1] : tvec T 2).x = a0 ∧ (tvec.ofArgs [a0, a1] : tvec T 2).y = a1
      ∧ (tvec.ofArgs [a0, a1] : tvec T 3).x = a0 ∧ (tvec.ofArgs [a0, a1] : tvec T 3).y = a1
      ∧ (tvec.ofArgs [a0, a1] : tvec T 4).x = a0 ∧ (tvec.ofArgs [a0, a1] : tvec T 4).y = a1
      ∧ (tvec.ofArgs [a0, a1, a2] : tvec T 3).x = a0
      ∧ (tvec.ofArgs [a0, a1, a2] : tvec T 3).y = a1
      ∧ (tvec.ofArgs [a0, a1, a2] : tvec T 3).z = a2
      ∧ (tvec.ofArgs [a0, a1, a2] : tvec T 4).x = a0
      ∧ (tvec.ofArgs [a0, a1, a2] : tvec T 4).y = a1
      ∧ (tvec.ofArgs [a0, a1, a2] : tvec T 4).z = a2
      ∧ (tvec.ofArgs [a0, a1, a2, a3] : tvec T 4).x = a0
      ∧ (tvec.ofArgs [a0, a1, a2, a3] : tvec T 4).y = a1
      ∧ (tvec.ofArgs [a0, a1, a2, a3] : tvec T 4).z = a2
      ∧ (tvec.ofArgs [a0, a1, a2, a3] : tvec T 4).w = a3) := by
  constructor
  · show args.getD i.val 0 = args.get ⟨i.val, h⟩
    rw [List.getD_eq_getElem _ _ h]
    rfl
  · intro a0 a1 a2 a3
    exact ⟨rfl, rfl, rfl, rfl, rfl, rfl, rfl, rfl, rfl, rfl, rfl, rfl, rfl, rfl, rfl, rfl⟩

/-- Witness for C22: the second of the three arguments of `tvec<int,3>(7, 8, 9)`. -/
theorem variadic_constructor_positional_witness :
    (1 : Fin 3).val < [(7 : Int), 8, 9].length
    ∧ (tvec.ofArgs [(7 : Int), 8, 9] : tvec Int 3).data 1 = 8 :=
  ⟨by decide, (variadic_constructor_positional [(7 : Int), 8, 9] (1 : Fin 3) (by decide)).1⟩

/-- C23: when `length()` is exactly `0` or exactly `1`, `normalize()` leaves
every element of the vector unchanged. -/
theorem normalize_noop_at_zero_or_one {T F : Type} {N : Nat} [Zero F] [One F] [DecidableEq F]
    [IntConv T] [Add T] [Mul T] [One T] [Div T] (sqrt : T → F) (cast : F → T) (v : tvec T N)
    (h : v.length sqrt = 0 ∨ v.length sqrt = 1) (i : Fin N) :
    (v.normalize sqrt cast).data i = v.data i := by
  have hl : ¬ (v.length sqrt ≠ 0 ∧ v.length sqrt ≠ 1) := by
    intro hc
    rcases h with h0 | h1
    · exact hc.1 h0
    · exact hc.2 h1
  unfold tvec.normalize
  simp only [if_neg hl]

/-- Witness for C23: the integer vector `(0, 0, 0)`, whose length is `0`. -/
theorem normalize_noop_at_zero_or_one_witness :
    (sampleVecZero.length sampleSqrt = 0 ∨ sampleVecZero.length sampleSqrt = 1)
    ∧ (sampleVecZero.normalize sampleSqrt (fun l => l)).data 0 = sampleVecZero.data 0 :=
  ⟨Or.inl (by decide),
    normalize_noop_at_zero_or_one sampleSqrt (fun l => l) sampleVecZero (Or.inl (by decide)) 0⟩

/-- C24: for each order K in {2,3,4}, after the assignment `m[r][c] = x`
reading `m[r][c]` gives `x`, and reading any other position `m[r'][c']` gives
the value it had before the assignment. -/
theorem assignment_frame {T : Type} :
    (∀ (m : tmat2 T) (r c r' c' : Fin 2) (x : T),
      ((m.assign r c x).subscript r).subscript c = x
      ∧ ((m.assign r c x).subscript r').subscript c'
          = if r' = r ∧ c' = c then x else (m.subscript r').subscript c')
    ∧ (∀ (m : tmat3 T) (r c r' c' : Fin 3) (x : T),
      ((m.assign r c x).subscript r).subscript c = x
      ∧ ((m.assign r c x).subscript r').subscript c'
          = if r' = r ∧ c' = c then x else (m.subscript r').subscript c')
    ∧ (∀ (m : tmat4 T) (r c r' c' : Fin 4) (x : T),
      ((m.assign r c x).subscript r).subscript c = x
      ∧ ((m.assign r c x).subscript r').subscript c'
          = if r' = r ∧ c' = c then x else (m.subscript r').subscript c') := by
  refine ⟨?_, ?_, ?_⟩
  · intro m r c r' c' x
    refine ⟨?_, tmat2_assign_apply m r c r' c' x⟩
    rw [tmat2_assign_apply, if_pos ⟨rfl, rfl⟩]
  · intro m r c r' c' x
    refine ⟨?_, tmat3_assign_apply m r c r' c' x⟩
    rw [tmat3_assign_apply, if_pos ⟨rfl, rfl⟩]
  · intro m r c r' c' x
    refine ⟨?_, tmat4_assign_apply m r c r' c' x⟩
    rw [tmat4_assign_apply, if_pos ⟨rfl, rfl⟩]

/-- C25: with `s = sizeof(T)`, the alignment requested in mode `vector` is
`bit_ceil(N) * s` for N in {2,3,4}, so a 3-element vector is as wide as 4
elements; in mode `none` the object width is exactly `N * s` for N in
{2,3,4}. -/
theorem alignment_and_width (s : Nat) :
    tvec.alignment 2 align.vector s = bit_ceil 2 * s
    ∧ tvec.alignment 3 align.vector s = bit_ceil 3 * s
    ∧ tvec.alignment 4 align.vector s = bit_ceil 4 * s
    ∧ bit_ceil 3 = 4
    ∧ tvec.objectSize 3 align.vector s = 4 * s
    ∧ tvec.objectSize 2 align.none s = 2 * s
    ∧ tvec.objectSize 3 align.none s = 3 * s
    ∧ tvec.objectSize 4 align.none s = 4 * s := by
  have a2 : tvec.alignment 2 align.none s = 2 * s := by
    simp [tvec.alignment, bit_ceil_values]
  have a3 : tvec.alignment 3 align.none s = s := by
    simp [tvec.alignment, bit_ceil_values]
  have a4 : tvec.alignment 4 align.none s = 4 * s := by
    simp [tvec.alignment, bit_ceil_values]
  have v3 : tvec.alignment 3 align.vector s = 4 * s := by
    simp [tvec.alignment, bit_ceil_values]
  refine ⟨?_, ?_, ?_, bit_ceil_values.2.1, ?_, ?_, ?_, ?_⟩
  · simp [tvec.alignment]
  · simp [tvec.alignment]
  · simp [tvec.alignment]
  · unfold tvec.objectSize
    simp only [v3]
    exact round_up_three_to_four s
  · unfold tvec.objectSize
    simp only [a2]
    exact round_up_self (2 * s)
  · unfold tvec.objectSize
    simp only [a3]
    rcases Nat.eq_zero_or_pos s with h | h
    · subst h
      rfl
    · exact round_up_multiple 3 s h
  · unfold tvec.objectSize
    simp only [a4]
    exact round_up_self (4 * s)

/-- C26: `dot` returns an integer value: it is the cast of a running sum
kept in an `int` accumulator that starts at `0`; each product `v1[i] * v2[i]`
(for `i < min(N1, N2)`) is added to the accumulator and the sum is converted
back to `int`, which for a fractional value drops the fractional part
(toward zero).  When every such conversion is defined for a 32-bit `int`,
the result is the value of an `int` in range.
`dot((0.5,0.5,0.5), (1,1,1))` returns `0`. -/
theorem dot_is_integer_valued :
    (∀ (T : Type) [IntConv T] [Add T] [Mul T] (N1 N2 : Nat)
        (v1 : tvec T N1) (v2 : tvec T N2),
      tvec.dot v1 v2 = IntConv.ofInt (truncatedSum (commonProducts v1 v2)))
    ∧ (∀ (T : Type) [IntConv T] [Add T], truncatedSum ([] : List T) = 0)
    ∧ (∀ (T : Type) [IntConv T] [Add T] (ps : List T) (p : T),
      truncatedSum (ps ++ [p]) = IntConv.toInt (IntConv.ofInt (truncatedSum ps) + p))
    ∧ (∀ q : Rat, |((IntConv.toInt q : Int) : Rat)| ≤ |q|
        ∧ |q - ((IntConv.toInt q : Int) : Rat)| < 1)
    ∧ (∀ (N1 N2 : Nat) (v1 : tvec Rat N1) (v2 : tvec Rat N2),
      sumsInRange (commonProducts v1 v2) 0 →
        ∃ k : Int, -2147483648 ≤ k ∧ k ≤ 2147483647 ∧ tvec.dot v1 v2 = (k : Rat))
    ∧ commonProducts sampleHalves sampleOnes = [1 / 2 * 1, 1 / 2 * 1, 1 / 2 * 1]
    ∧ tvec.dot sampleHalves sampleOnes = 0 := by
  refine ⟨?_, ?_, ?_, toInt_truncates, ?_, ?_, dot_sampleHalves_sampleOnes⟩
  · intro T _ _ _ N1 N2 v1 v2
    exact dot_eq_truncatedSum v1 v2
  · intro T _ _
    exact truncatedSum_nil
  · intro T _ _ ps p
    exact truncatedSum_append ps p
  · intro N1 N2 v1 v2 h
    have hr := foldl_in_range (commonProducts v1 v2) 0 h (by decide) (by decide)
    exact ⟨truncatedSum (commonProducts v1 v2), hr.1, hr.2, dot_eq_truncatedSum v1 v2⟩
  · rfl

/-- Witness for C26: every conversion in `dot((0.5,0.5,0.5), (1,1,1))` is
defined, and the result is the value of an `int` in range. -/
theorem dot_is_integer_valued_witness :
    sumsInRange (commonProducts sampleHalves sampleOnes) 0
    ∧ ∃ k : Int, -2147483648 ≤ k ∧ k ≤ 2147483647
        ∧ tvec.dot sampleHalves sampleOnes = (k : Rat) :=
  ⟨sumsInRange_sample,
    dot_is_integer_valued.2.2.2.2.1 3 3 sampleHalves sampleOnes sumsInRange_sample⟩

/-- C27: for each order K in {2,3,4}, over an exact-arithmetic element
type, applying a product to a vector equals applying the factors in turn:
`(A * B) * v = A * (B * v)` in every element. -/
theorem matrix_product_then_vector {T : Type} [CommRing T] :
    (∀ (A B : tmat2 T) (v : tvec T 2) (i : Fin 2),
      ((A.mul B).mulVec v).data i = (A.mulVec (B.mulVec v)).data i)
    ∧ (∀ (A B : tmat3 T) (v : tvec T 3) (i : Fin 3),
      ((A.mul B).mulVec v).data i = (A.mulVec (B.mulVec v)).data i)
    ∧ (∀ (A B : tmat4 T) (v : tvec T 4) (i : Fin 4),
      ((A.mul B).mulVec v).data i = (A.mulVec (B.mulVec v)).data i) := by
  refine ⟨?_, ?_, ?_⟩
  · intro A B v i
    simp only [tmat2_mulVec_apply, tmat2_mul_apply, Fin.sum_univ_two]
    ring
  · intro A B v i
    simp only [tmat3_mulVec_apply, tmat3_mul_apply, Fin.sum_univ_three]
    ring
  · intro A B v i
    simp only [tmat4_mulVec_apply, tmat4_mul_apply, Fin.sum_univ_four]
    ring

/-- C28: for each order K in {2,3,4}, over an exact-arithmetic element
type, the transpose of `A * B` equals `transpose(B) * transpose(A)` in every
entry. -/
theorem transpose_reverses_product {T : Type} [CommRing T] :
    (∀ (A B : tmat2 T) (i j : Fin 2),
      ((A.mul B).transpose.subscript i).subscript j
        = ((B.transpose.mul A.transpose).subscript i).subscript j)
    ∧ (∀ (A B : tmat3 T) (i j : Fin 3),
      ((A.mul B).transpose.subscript i).subscript j
        = ((B.transpose.mul A.transpose).subscript i).subscript j)
    ∧ (∀ (A B : tmat4 T) (i j : Fin 4),
      ((A.mul B).transpose.subscript i).subscript j
        = ((B.transpose.mul A.transpose).subscript i).subscript j) := by
  refine ⟨?_, ?_, ?_⟩
  · intro A B i j
    simp only [tmat2_transpose_apply, tmat2_mul_apply, Fin.sum_univ_two]
    ring
  · intro A B i j
    simp only [tmat3_transpose_apply, tmat3_mul_apply, Fin.sum_univ_three]
    ring
  · intro A B i j
    simp only [tmat4_transpose_apply, tmat4_mul_apply, Fin.sum_univ_four]
    ring

/-- C29: for each order K in {2,3,4}, over an exact-arithmetic element
type, matrix multiplication is associative: `(A * B) * C = A * (B * C)` in
every entry. -/
theorem matrix_product_associative {T : Type} [CommRing T] :
    (∀ (A B C : tmat2 T) (i j : Fin 2),
      (((A.mul B).mul C).subscript i).subscript j
        = ((A.mul (B.mul C)).subscript i).subscript j)
    ∧ (∀ (A B C : tmat3 T) (i j : Fin 3),
      (((A.mul B).mul C).subscript i).subscript j
        = ((A.mul (B.mul C)).subscript i).subscript j)
    ∧ (∀ (A B C : tmat4 T) (i j : Fin 4),
      (((A.mul B).mul C).subscript i).subscript j
        = ((A.mul (B.mul C)).subscript i).subscript j) := by
  refine ⟨?_, ?_, ?_⟩
  · intro A B C i j
    simp only [tmat2_mul_apply, Fin.sum_univ_two]
    ring
  · intro A B C i j
    simp only [tmat3_mul_apply, Fin.sum_univ_three]
    ring
  · intro A B C i j
    simp only [tmat4_mul_apply, Fin.sum_univ_four]
    ring

end Claims

end LibMatrix
